import Mathlib

/-!
Verification development for the contacts-mcp repository.

Shallow embedding of the core modules:
  * `src/contacts/model.ts`   — `createContact`, `parseName`
  * `src/contacts/vcard.ts`   — `contactToVCard`, `vcardToContact` and helpers
  * `src/contacts/normalize.ts` — `normalizeEmail`, `normalizePhone`, `normalizeContact`
  * `src/contacts/dedup.ts`   — `findDuplicates`, `compareContacts`, `levenshtein`, blocking
  * `src/contacts/merge.ts`   — `mergeContacts` and strategies
  * `src/store/git-store.ts`  — `get`, `update`, `delete`, `rollback` (state-passing model)

Modelling conventions:
  * JS strings are modelled by Lean `String` (sequences of Unicode scalar values);
    the UTF-16 code-unit level is modelled explicitly (`List Nat`) where it is
    observable, namely in the vCard line-folding routine.
  * JS `number` scores in the dedup engine are modelled by `ℚ`; every score that
    arises is a small decimal and all comparisons/roundings agree with the
    IEEE-double computation on these values.
  * Fallible code returns `Option`/`Except`; `new Date(...)`/`Date.now()` is an
    explicit `now` parameter; the external `libphonenumber` parser (a package
    dependency, not repository code) is an explicit function parameter.
  * TS optional fields become `Option`; optional booleans that are only ever
    used for truthiness become `Bool` (JS `undefined` and `false` coincide).
-/

namespace ContactsMcp

/-! ## Data model (`src/types/contact.ts`) -/

structure ContactEmail where
  value : String
  /-- source field `type` -/
  etype : Option String := none
  primary : Bool := false
deriving DecidableEq, Repr

structure ContactPhone where
  value : String
  originalValue : Option String := none
  etype : Option String := none
  primary : Bool := false
deriving DecidableEq, Repr

structure ContactAddress where
  street : Option String := none
  city : Option String := none
  state : Option String := none
  postalCode : Option String := none
  country : Option String := none
  etype : Option String := none
deriving DecidableEq, Repr

structure ContactOrganization where
  name : Option String := none
  department : Option String := none
  title : Option String := none
deriving DecidableEq, Repr

structure ContactName where
  /-- source field `prefix` -/
  pre : Option String := none
  givenName : Option String := none
  middleName : Option String := none
  familyName : Option String := none
  /-- source field `suffix` -/
  suf : Option String := none
deriving DecidableEq, Repr

structure ContactUrl where
  value : String
  etype : Option String := none
deriving DecidableEq, Repr

structure ContactMetadata where
  created : String
  modified : String
  source : Option String := none
  /-- `Record<string, string>` modelled as an insertion-ordered association list -/
  providerIds : List (String × String) := []
  archived : Bool := false
  etag : Option String := none
deriving DecidableEq, Repr

structure Contact where
  id : String
  fullName : String
  name : ContactName := {}
  emails : List ContactEmail := []
  phones : List ContactPhone := []
  addresses : List ContactAddress := []
  organization : Option ContactOrganization := none
  birthday : Option String := none
  anniversary : Option String := none
  urls : List ContactUrl := []
  notes : Option String := none
  categories : List String := []
  photo : Option String := none
  metadata : ContactMetadata
deriving DecidableEq, Repr

/-- JS truthiness of an optional string: `undefined` and `""` are falsy. -/
def strTruthy : Option String → Bool
  | none => false
  | some s => s ≠ ""

/-! ### String primitives

Kernel-computable counterparts of the JS string operations (the corresponding
`String` library functions use byte-position loops that do not reduce inside
`decide`/`rfl` proofs).  Semantics follow the JS methods: `replace` with a
global literal pattern substitutes non-overlapping occurrences left to right,
`split` keeps empty pieces, `trim`/`toLowerCase`/`toUpperCase` act
character-wise (ASCII case mapping; the repository compares human-entered
ASCII names and fixed keywords). -/

/-- Is `pat` a prefix of `s`? -/
def listStartsWith : List Char → List Char → Bool
  | _, [] => true
  | [], _ :: _ => false
  | c :: s, p :: ps => c = p && listStartsWith s ps

def strStartsWith (s pat : String) : Bool :=
  listStartsWith s.data pat.data

/-- Fuelled global replace; fuel `s.length + 1` always suffices. -/
def replaceL (pat rep : List Char) : Nat → List Char → List Char
  | 0, s => s
  | _ + 1, [] => []
  | fuel + 1, c :: rest =>
    if pat ≠ [] && listStartsWith (c :: rest) pat then
      rep ++ replaceL pat rep fuel ((c :: rest).drop pat.length)
    else c :: replaceL pat rep fuel rest

/-- `s.replace(/pat/g, rep)` for a literal pattern. -/
def strReplace (s pat rep : String) : String :=
  String.mk (replaceL pat.data rep.data (s.data.length + 1) s.data)

/-- Fuelled split on a literal separator. -/
def splitOnL (sep : List Char) : Nat → List Char → List (List Char)
  | 0, s => [s]
  | _ + 1, [] => [[]]
  | fuel + 1, c :: rest =>
    if sep ≠ [] && listStartsWith (c :: rest) sep then
      [] :: splitOnL sep fuel ((c :: rest).drop sep.length)
    else
      match splitOnL sep fuel rest with
      | h :: t => (c :: h) :: t
      | [] => [[c]]

/-- `s.split(sep)` for a literal separator (empty pieces kept). -/
def strSplitOn (s sep : String) : List String :=
  (splitOnL sep.data (s.data.length + 1) s.data).map String.mk

/-- Split at every character satisfying `p` (empty pieces kept). -/
def splitCharL (p : Char → Bool) : List Char → List (List Char)
  | [] => [[]]
  | c :: rest =>
    let r := splitCharL p rest
    if p c then [] :: r
    else
      match r with
      | h :: t => (c :: h) :: t
      | [] => [[c]]

def strSplitChar (s : String) (p : Char → Bool) : List String :=
  (splitCharL p s.data).map String.mk

def strToLower (s : String) : String := String.mk (s.data.map Char.toLower)

def strToUpper (s : String) : String := String.mk (s.data.map Char.toUpper)

def strDrop (s : String) (n : Nat) : String := String.mk (s.data.drop n)

def strTake (s : String) (n : Nat) : String := String.mk (s.data.take n)

/-- `s.slice(-n)`: the last `n` characters. -/
def strTakeRight (s : String) (n : Nat) : String :=
  String.mk (s.data.drop (s.data.length - n))

def strContainsChar (s : String) (c : Char) : Bool := s.data.contains c

/-- Code-point lexicographic comparison (JS default string sort order). -/
def listLt : List Char → List Char → Bool
  | [], [] => false
  | [], _ :: _ => true
  | _ :: _, [] => false
  | a :: as_, b :: bs => if a.toNat < b.toNat then true
      else if b.toNat < a.toNat then false else listLt as_ bs

def jsStrLe (a b : String) : Bool := !(listLt b.data a.data)

/-- Strict code-point order; on equal-format ISO-8601 timestamps this is the
chronological order. -/
def jsStrLt (a b : String) : Bool := listLt a.data b.data

/-- JS `\s`-style whitespace test (ASCII subset; the repository only ever trims
and splits human-entered text on these). -/
def jsIsSpace (c : Char) : Bool :=
  c = ' ' || c = '\t' || c = '\n' || c = '\r' || c = '\x0b' || c = '\x0c'

/-- `s.trim()`. -/
def strTrim (s : String) : String :=
  String.mk (((s.data.dropWhile jsIsSpace).reverse.dropWhile jsIsSpace).reverse)

/-! ## `src/contacts/model.ts` -/

/-- `hasNameFields` from `model.ts`: the name object carries at least one part
(truthiness test on each part). -/
def hasNameFields (n : ContactName) : Bool :=
  strTruthy n.givenName || strTruthy n.familyName || strTruthy n.middleName ||
    strTruthy n.pre || strTruthy n.suf

/-- `trimmed.split(/\s+/)` on an already-trimmed string: maximal runs of
whitespace separate the words. -/
def splitWs (s : String) : List String :=
  (strSplitChar s jsIsSpace).filter (· ≠ "")

/-- `parseName` from `model.ts`: best-effort split of a display name into
given/middle/family parts. -/
def parseName (fullName : String) : ContactName :=
  let trimmed := strTrim fullName
  if trimmed = "" then {}
  else
    match splitWs trimmed with
    | [p] => { givenName := some p }
    | [p, q] => { givenName := some p, familyName := some q }
    | parts =>
      { givenName := parts.headD ""
        middleName := some (String.intercalate " " ((parts.drop 1).dropLast))
        familyName := some (parts.getLastD "") }

/-- `createContact` from `model.ts`, at the call sites used by the codec and the
store: every field is supplied explicitly, so only the name-defaulting logic is
observable (`name` falls back to `parseName(fullName)` when no part is set). -/
def createContact (c : Contact) : Contact :=
  { c with name := if hasNameFields c.name then c.name else parseName c.fullName }

/-! ## vCard codec helpers (`src/contacts/vcard.ts`) -/

/-- `escapeVCardValue`: four sequential global replacements, in source order. -/
def escapeVCardValue (v : String) : String :=
  strReplace (strReplace (strReplace (strReplace v "\\" "\\\\") ";" "\\;") "," "\\,") "\n" "\\n"

/-- `unescapeVCardValue`: four sequential global replacements, in source order
(`\n` first, `\\` last). -/
def unescapeVCardValue (v : String) : String :=
  strReplace (strReplace (strReplace (strReplace v "\\n" "\n") "\\," ",") "\\;" ";") "\\\\" "\\"

/-! ### UTF-16 code-unit layer for line folding

`foldLines` measures `Buffer.byteLength(·, 'utf-8')` but slices with
`String.prototype.substring`, which counts UTF-16 code units and can cut a
surrogate pair in half.  We therefore model this one routine on code-unit
lists.  Node encodes a lone surrogate as U+FFFD (3 bytes) when converting to
UTF-8, both in `Buffer.byteLength` and when the text is written to disk. -/

/-- UTF-16 code units of a scalar-value string. -/
def toUtf16 (s : String) : List Nat :=
  s.data.foldr (fun c acc =>
    if c.toNat < 0x10000 then c.toNat :: acc
    else
      (0xD800 + (c.toNat - 0x10000) / 0x400) ::
        (0xDC00 + (c.toNat - 0x10000) % 0x400) :: acc) []

def isHighSurrogate (c : Nat) : Bool := 0xD800 ≤ c && c ≤ 0xDBFF
def isLowSurrogate (c : Nat) : Bool := 0xDC00 ≤ c && c ≤ 0xDFFF

/-- `Buffer.byteLength(·, 'utf-8')` on a code-unit sequence: paired surrogates
cost 4 bytes, lone surrogates 3 (U+FFFD). -/
def utf16ByteLen : List Nat → Nat
  | [] => 0
  | [c] => if c < 0x80 then 1 else if c < 0x800 then 2 else 3
  | c :: d :: rest =>
    if c < 0x80 then 1 + utf16ByteLen (d :: rest)
    else if c < 0x800 then 2 + utf16ByteLen (d :: rest)
    else if isHighSurrogate c then
      (if isLowSurrogate d then 4 + utf16ByteLen rest else 3 + utf16ByteLen (d :: rest))
    else 3 + utf16ByteLen (d :: rest)

/-- Decode code units back to a scalar string; lone surrogates become U+FFFD,
as they do when Node writes the folded text as UTF-8. -/
def fromUtf16 : List Nat → String
  | [] => ""
  | [c] =>
    if isHighSurrogate c || isLowSurrogate c then String.singleton (Char.ofNat 0xFFFD)
    else String.singleton (Char.ofNat c)
  | c :: d :: rest =>
    if isHighSurrogate c then
      (if isLowSurrogate d then
        String.singleton (Char.ofNat (0x10000 + (c - 0xD800) * 0x400 + (d - 0xDC00)))
          ++ fromUtf16 rest
      else String.singleton (Char.ofNat 0xFFFD) ++ fromUtf16 (d :: rest))
    else if isLowSurrogate c then String.singleton (Char.ofNat 0xFFFD) ++ fromUtf16 (d :: rest)
    else String.singleton (Char.ofNat c) ++ fromUtf16 (d :: rest)

/-- UTF-8 size of one scalar value. -/
def charUtf8Bytes (c : Char) : Nat :=
  if c.toNat < 0x80 then 1 else if c.toNat < 0x800 then 2
  else if c.toNat < 0x10000 then 3 else 4

/-- UTF-8 byte length of a scalar string (the octet count of a persisted
physical line). -/
def strUtf8Len (s : String) : Nat := (s.data.map charUtf8Bytes).sum

/-- The inner `while (cutPoint > 0 && byteLength(...) > limit) cutPoint--` loop:
largest `k ≤ start` with `utf16ByteLen (u.take k) ≤ limit`, or 0. -/
def findCut (u : List Nat) (limit : Nat) : Nat → Nat
  | 0 => 0
  | k + 1 =>
    if utf16ByteLen (u.take (k + 1)) > limit then findCut u limit k else k + 1

/-- The outer folding loop of `foldLines`, fuelled (each iteration consumes at
least one code unit, so `u.length + 1` fuel always suffices). -/
def foldLoop (fuel : Nat) (first : Bool) (u : List Nat) : List (List Nat) :=
  match fuel with
  | 0 => [u]
  | fuel + 1 =>
    if utf16ByteLen u > 75 then
      let limit := if first then 75 else 74
      let cut := findCut u limit limit
      u.take cut :: foldLoop fuel false (u.drop cut)
    else if u = [] then [] else [u]

/-- Fold one logical line, as in `foldLines`' per-line lambda. -/
def foldOneLine (line : String) : String :=
  let u := toUtf16 line
  if utf16ByteLen u ≤ 75 then line
  else String.intercalate "\r\n " ((foldLoop (u.length + 1) true u).map fromUtf16)

/-- `foldLines` from `vcard.ts`: RFC 6350 line folding at 75 octets. -/
def foldLines (text : String) : String :=
  String.intercalate "\r\n" ((strSplitOn text "\r\n").map foldOneLine)

/-- `unfoldLines` from `vcard.ts`: normalise line endings, rejoin continuation
lines (leading space or tab, dropping that one character), drop empty lines. -/
def unfoldLines (text : String) : List String :=
  let raw := strSplitOn (strReplace (strReplace text "\r\n" "\n") "\r" "\n") "\n"
  let joined := raw.foldl (fun (acc : List String) line =>
    if (strStartsWith line " " || strStartsWith line "\t") && acc ≠ [] then
      match acc with
      | [] => [line]
      | prev :: rest => (prev ++ strDrop line 1) :: rest
    else line :: acc) []
  (joined.reverse).filter (fun l => l.length ≠ 0)

/-! ### Property parsing -/

structure VCardProperty where
  name : String
  params : List String
  value : String
deriving DecidableEq, Repr

/-- `parseProperties`: split each line at its first `:`, then the left side at
every `;`; drop lines without a colon and BEGIN/END markers. -/
def parseProperties (lines : List String) : List VCardProperty :=
  lines.foldr (fun line acc =>
    match strSplitOn line ":" with
    | [] => acc
    | [_] => acc
    | left :: valueParts =>
      let value := String.intercalate ":" valueParts
      let parts := strSplitOn left ";"
      let name := strToUpper (parts.headD "")
      let params := parts.drop 1
      if name = "BEGIN" || name = "END" then acc
      else { name := name, params := params, value := value } :: acc) []

/-- `PropertyMap.get` / `getFirstValue`: value of the first property with the
given (uppercased) name. -/
def getFirstValue (props : List VCardProperty) (name : String) : Option String :=
  (props.find? (fun e => e.name = strToUpper name)).map (·.value)

/-- `PropertyMap.getAll`. -/
def getAllProps (props : List VCardProperty) (name : String) : List VCardProperty :=
  props.filter (fun e => e.name = strToUpper name)

/-- `extractUid`: empty value is absent; strip a leading `urn:uuid:`. -/
def extractUid (value : String) : Option String :=
  if value = "" then none
  else some (if strStartsWith value "urn:uuid:" then strDrop value 9 else value)

/-- `extractType`: first parameter whose uppercase form starts with `TYPE=`;
take the original characters after position 5, lowercased. -/
def extractType (params : List String) : Option String :=
  (params.find? (fun p => strStartsWith (strToUpper p) "TYPE=")).map (fun p => strToLower (strDrop p 5))

/-- A parameter marks the entry primary when its uppercase form starts `PREF`. -/
def hasPref (params : List String) : Bool :=
  params.any (fun p => strStartsWith (strToUpper p) "PREF")

/-! ### JSON blob for the provider-identifier map

`JSON.stringify` / `JSON.parse` on a flat `Record<string, string>`.  The
parser accepts exactly the compact form the encoder produces (flat object of
string fields); any other input fails, which the caller turns into the empty
map — matching the `try/catch` in `vcardToContact` for all inputs this
repository writes. -/

def lbraceChar : Char := Char.ofNat 123
def rbraceChar : Char := Char.ofNat 125

def jsonEscapeChar (c : Char) : String :=
  if c = '"' then "\\\""
  else if c = '\\' then "\\\\"
  else if c = '\n' then "\\n"
  else if c = '\r' then "\\r"
  else if c = '\t' then "\\t"
  else if c = '\x08' then "\\b"
  else if c = '\x0c' then "\\f"
  else if c.toNat < 0x20 then
    "\\u00" ++ String.singleton (Nat.digitChar (c.toNat / 16))
      ++ String.singleton (Nat.digitChar (c.toNat % 16))
  else String.singleton c

def jsonQuote (s : String) : String :=
  "\"" ++ String.join (s.data.map jsonEscapeChar) ++ "\""

/-- `JSON.stringify` of a flat string record (insertion order, compact). -/
def jsonStringifyRecord (m : List (String × String)) : String :=
  String.singleton lbraceChar
    ++ String.intercalate "," (m.map (fun kv => jsonQuote kv.1 ++ ":" ++ jsonQuote kv.2))
    ++ String.singleton rbraceChar

def hexVal (c : Char) : Option Nat :=
  if '0' ≤ c ∧ c ≤ '9' then some (c.toNat - '0'.toNat)
  else if 'a' ≤ c ∧ c ≤ 'f' then some (c.toNat - 'a'.toNat + 10)
  else if 'A' ≤ c ∧ c ≤ 'F' then some (c.toNat - 'A'.toNat + 10)
  else none

/-- Parse a JSON string body after the opening quote; returns content and rest. -/
def jsonStrChars : List Char → Option (String × List Char)
  | [] => none
  | '"' :: rest => some ("", rest)
  | '\\' :: esc => (do
      match esc with
      | '"' :: rest => let (s, r) ← jsonStrChars rest; pure ("\"" ++ s, r)
      | '\\' :: rest => let (s, r) ← jsonStrChars rest; pure ("\\" ++ s, r)
      | '/' :: rest => let (s, r) ← jsonStrChars rest; pure ("/" ++ s, r)
      | 'n' :: rest => let (s, r) ← jsonStrChars rest; pure ("\n" ++ s, r)
      | 'r' :: rest => let (s, r) ← jsonStrChars rest; pure ("\r" ++ s, r)
      | 't' :: rest => let (s, r) ← jsonStrChars rest; pure ("\t" ++ s, r)
      | 'b' :: rest => let (s, r) ← jsonStrChars rest; pure ("\x08" ++ s, r)
      | 'f' :: rest => let (s, r) ← jsonStrChars rest; pure ("\x0c" ++ s, r)
      | 'u' :: h1 :: h2 :: h3 :: h4 :: rest =>
        let a ← hexVal h1; let b ← hexVal h2; let c ← hexVal h3; let d ← hexVal h4
        let code := ((a * 16 + b) * 16 + c) * 16 + d
        if code ≥ 0xD800 ∧ code < 0xE000 then none
        else
          let (s, r) ← jsonStrChars rest
          pure (String.singleton (Char.ofNat code) ++ s, r)
      | _ => none)
  | c :: rest => (do
      let (s, r) ← jsonStrChars rest
      pure (String.singleton c ++ s, r))

/-- One quoted key/value member followed by a comma (more members) or the
closing brace (end of object). -/
def jsonParseMembers : Nat → List Char → Option (List (String × String) × List Char)
  | 0, _ => none
  | fuel + 1, cs =>
    match cs with
    | '"' :: rest => do
      let (k, r1) ← jsonStrChars rest
      match r1 with
      | ':' :: '"' :: r2 => do
        let (v, r3) ← jsonStrChars r2
        match r3 with
        | ',' :: r4 => do
          let (more, r5) ← jsonParseMembers fuel r4
          pure ((k, v) :: more, r5)
        | c :: r4 =>
          if c = rbraceChar then pure ([(k, v)], r4) else none
        | [] => none
      | _ => none
    | _ => none

/-- `JSON.parse` restricted to flat string records; `none` models the thrown
`SyntaxError` (caught by the caller). -/
def jsonParseRecord (s : String) : Option (List (String × String)) :=
  match s.data with
  | [] => none
  | c :: rest =>
    if c = lbraceChar then
      match rest with
      | d :: tail =>
        if d = rbraceChar then (if tail = [] then some [] else none)
        else
          match jsonParseMembers (rest.length + 1) rest with
          | some (m, []) => some m
          | _ => none
      | [] => none
    else none

/-! ## `contactToVCard` (`src/contacts/vcard.ts`) -/

/-- `x || undefined` on a string: empty becomes absent. -/
def optOfStr (s : String) : Option String :=
  if s = "" then none else some s

/-- Parameter list for EMAIL/TEL/URL/ADR lines: `TYPE=` first (when the tag is
truthy), then `PREF=1` when primary. -/
def typeParams (etype : Option String) (primary : Bool) : List String :=
  (match etype with
   | some t => if t ≠ "" then ["TYPE=" ++ t] else []
   | none => []) ++ (if primary then ["PREF=1"] else [])

/-- `params.length ? `;${params.join(';')}` : ''`. -/
def paramStr (params : List String) : String :=
  if params ≠ [] then ";" ++ String.intercalate ";" params else ""

/-- `contactToVCard`: serialize a Contact to vCard 4.0 text, then fold lines. -/
def contactToVCard (contact : Contact) : String :=
  let n := contact.name
  let lines : List String :=
    ["BEGIN:VCARD", "VERSION:4.0",
     "UID:urn:uuid:" ++ contact.id,
     "FN:" ++ escapeVCardValue contact.fullName,
     "N:" ++ escapeVCardValue (n.familyName.getD "") ++ ";"
         ++ escapeVCardValue (n.givenName.getD "") ++ ";"
         ++ escapeVCardValue (n.middleName.getD "") ++ ";"
         ++ escapeVCardValue (n.pre.getD "") ++ ";"
         ++ escapeVCardValue (n.suf.getD "")]
    ++ contact.emails.map (fun email =>
        "EMAIL" ++ paramStr (typeParams email.etype email.primary) ++ ":"
          ++ escapeVCardValue email.value)
    ++ contact.phones.map (fun phone =>
        "TEL" ++ paramStr (typeParams phone.etype phone.primary) ++ ":"
          ++ escapeVCardValue phone.value)
    ++ contact.addresses.map (fun addr =>
        "ADR" ++ paramStr (typeParams addr.etype false) ++ ":;;"
          ++ escapeVCardValue (addr.street.getD "") ++ ";"
          ++ escapeVCardValue (addr.city.getD "") ++ ";"
          ++ escapeVCardValue (addr.state.getD "") ++ ";"
          ++ escapeVCardValue (addr.postalCode.getD "") ++ ";"
          ++ escapeVCardValue (addr.country.getD ""))
    ++ (match contact.organization with
        | some org =>
          (if strTruthy org.name then
            ["ORG:" ++ escapeVCardValue (org.name.getD "")
              ++ (if strTruthy org.department then
                    ";" ++ escapeVCardValue (org.department.getD "") else "")]
           else [])
          ++ (if strTruthy org.title then
                ["TITLE:" ++ escapeVCardValue (org.title.getD "")] else [])
        | none => [])
    ++ (if strTruthy contact.birthday then ["BDAY:" ++ contact.birthday.getD ""] else [])
    ++ (if strTruthy contact.anniversary then
          ["ANNIVERSARY:" ++ contact.anniversary.getD ""] else [])
    ++ contact.urls.map (fun url =>
        "URL" ++ paramStr (typeParams url.etype false) ++ ":" ++ escapeVCardValue url.value)
    ++ (if strTruthy contact.notes then
          ["NOTE:" ++ escapeVCardValue (contact.notes.getD "")] else [])
    ++ (if contact.categories.length > 0 then
          ["CATEGORIES:" ++ String.intercalate "," (contact.categories.map escapeVCardValue)]
        else [])
    ++ (if strTruthy contact.photo then ["PHOTO:" ++ contact.photo.getD ""] else [])
    ++ ["REV:" ++ contact.metadata.modified]
    ++ (match contact.metadata.source with
        | some s => if s ≠ "" then
            ["X-CONTACTS-MCP-SOURCE:" ++ escapeVCardValue s] else []
        | none => [])
    ++ (if contact.metadata.providerIds.length > 0 then
          ["X-CONTACTS-MCP-PROVIDER-IDS:"
            ++ escapeVCardValue (jsonStringifyRecord contact.metadata.providerIds)]
        else [])
    ++ ["X-CONTACTS-MCP-CREATED:" ++ contact.metadata.created]
    ++ (if contact.metadata.archived then ["X-CONTACTS-MCP-ARCHIVED:true"] else [])
    ++ ["END:VCARD"]
  foldLines (String.intercalate "\r\n" lines)

/-! ## `vcardToContact` (`src/contacts/vcard.ts`)

`now` models the two `new Date().toISOString()` fallbacks (reached only when
REV / X-CONTACTS-MCP-CREATED are missing). -/

def vcardToContact (now : String) (vcard : String) : Contact :=
  let lines := unfoldLines vcard
  let props := parseProperties lines
  let id := (extractUid ((getFirstValue props "UID").getD "")).getD ""
  let fullName := unescapeVCardValue ((getFirstValue props "FN").getD "Unknown")
  let nValue := (getFirstValue props "N").getD ";;;;"
  let nParts := (strSplitOn nValue ";").map unescapeVCardValue
  let name : ContactName :=
    { familyName := optOfStr (nParts.getD 0 "")
      givenName := optOfStr (nParts.getD 1 "")
      middleName := optOfStr (nParts.getD 2 "")
      pre := optOfStr (nParts.getD 3 "")
      suf := optOfStr (nParts.getD 4 "") }
  let emails : List ContactEmail := (getAllProps props "EMAIL").map (fun p =>
    { value := unescapeVCardValue p.value
      etype := extractType p.params
      primary := hasPref p.params })
  let phones : List ContactPhone := (getAllProps props "TEL").map (fun p =>
    { value := unescapeVCardValue p.value
      etype := extractType p.params
      primary := hasPref p.params })
  let addresses : List ContactAddress := (getAllProps props "ADR").map (fun p =>
    let parts := (strSplitOn p.value ";").map unescapeVCardValue
    { street := optOfStr (parts.getD 2 "")
      city := optOfStr (parts.getD 3 "")
      state := optOfStr (parts.getD 4 "")
      postalCode := optOfStr (parts.getD 5 "")
      country := optOfStr (parts.getD 6 "")
      etype := extractType p.params })
  let orgValue := getFirstValue props "ORG"
  let titleValue := getFirstValue props "TITLE"
  let organization : Option ContactOrganization :=
    if strTruthy orgValue || strTruthy titleValue then
      some
        { name :=
            if strTruthy orgValue then
              some (unescapeVCardValue ((strSplitOn (orgValue.getD "") ";").headD ""))
            else none
          department :=
            match orgValue with
            | some ov =>
              if (strSplitOn ov ";").length ≥ 2 then
                some (unescapeVCardValue ((strSplitOn ov ";").getD 1 ""))
              else none
            | none => none
          title :=
            if strTruthy titleValue then some (unescapeVCardValue (titleValue.getD ""))
            else none }
    else none
  let urls : List ContactUrl := (getAllProps props "URL").map (fun p =>
    { value := unescapeVCardValue p.value
      etype := extractType p.params })
  let birthday := getFirstValue props "BDAY"
  let anniversary := getFirstValue props "ANNIVERSARY"
  let noteVal := getFirstValue props "NOTE"
  let notes := if strTruthy noteVal then some (unescapeVCardValue (noteVal.getD "")) else none
  let photo := getFirstValue props "PHOTO"
  let rev := getFirstValue props "REV"
  let catValue := getFirstValue props "CATEGORIES"
  let categories :=
    if strTruthy catValue then (strSplitOn (catValue.getD "") ",").map unescapeVCardValue
    else []
  let sourceVal := getFirstValue props "X-CONTACTS-MCP-SOURCE"
  let providerIdsRaw := getFirstValue props "X-CONTACTS-MCP-PROVIDER-IDS"
  let providerIds : List (String × String) :=
    if strTruthy providerIdsRaw then
      (jsonParseRecord (unescapeVCardValue (providerIdsRaw.getD ""))).getD []
    else []
  let created := (getFirstValue props "X-CONTACTS-MCP-CREATED").getD (rev.getD now)
  let archived := (getFirstValue props "X-CONTACTS-MCP-ARCHIVED") = some "true"
  createContact
    { id := id
      fullName := fullName
      name := name
      emails := emails
      phones := phones
      addresses := addresses
      organization := organization
      birthday := birthday
      anniversary := anniversary
      urls := urls
      notes := notes
      categories := categories
      photo := photo
      metadata :=
        { created := created
          modified := rev.getD now
          source := if strTruthy sourceVal then
              some (unescapeVCardValue (sourceVal.getD "")) else none
          providerIds := providerIds
          archived := archived } }

/-! ## `src/contacts/normalize.ts`

`normalizePhone` delegates to `libphonenumber-js` (a package dependency, not
repository code): `lib raw = some e` models a successful parse that is valid or
possible, formatted as E.164; `none` models a failed parse. -/

/-- `normalizeEmail`: trim and lowercase. -/
def normalizeEmail (email : String) : String :=
  strToLower (strTrim email)

/-- Characters stripped by the fallback `raw.replace(/[\s\-\(\)\.]/g, '')`. -/
def isStripChar (c : Char) : Bool :=
  jsIsSpace c || c = '-' || c = '(' || c = ')' || c = '.'

/-- `normalizePhone` with the external parser as a parameter. -/
def normalizePhone (lib : String → Option String) (raw : String) : String :=
  match lib raw with
  | some formatted => formatted
  | none =>
    let stripped := String.mk (raw.data.filter (fun c => !isStripChar c))
    if stripped = "" then raw else stripped

/-- Per-phone step of `normalizeContact`: when normalization changes the value,
remember the original. -/
def normalizePhoneEntry (lib : String → Option String) (p : ContactPhone) : ContactPhone :=
  let normalized := normalizePhone lib p.value
  if normalized ≠ p.value then
    { p with originalValue := some p.value, value := normalized }
  else p

/-- Name part of `normalizeContact`: trim given/family/middle (only those). -/
def normalizeNameParts (n : ContactName) : ContactName :=
  { n with
    givenName := n.givenName.map strTrim
    familyName := n.familyName.map strTrim
    middleName := n.middleName.map strTrim }

/-- `normalizeContact`: normalize emails, phones and name in place. -/
def normalizeContact (lib : String → Option String) (c : Contact) : Contact :=
  { c with
    emails := c.emails.map (fun e => { e with value := normalizeEmail e.value })
    phones := c.phones.map (normalizePhoneEntry lib)
    fullName := strTrim c.fullName
    name := normalizeNameParts c.name }

/-! ### Rational primitives

Kernel-computable counterparts of the `ℚ` operations used for the dedup
scores (the library's `Rat.add`/`Rat.mul`/`≤` do not reduce inside
`decide`/`rfl` proofs).  Each is proved equal to the standard operation in
the lemma section below, so the score arithmetic is ordinary exact rational
arithmetic. -/

/-- `a ≤ b` by cross multiplication (denominators are positive). -/
def qle (a b : ℚ) : Bool := a.num * (b.den : ℤ) ≤ b.num * (a.den : ℤ)

/-- `a < b` by cross multiplication. -/
def qlt (a b : ℚ) : Bool := a.num * (b.den : ℤ) < b.num * (a.den : ℤ)

/-- `Math.max` on exact rationals. -/
def qmax (a b : ℚ) : ℚ := if qle a b then b else a

/-- `Math.min` on exact rationals. -/
def qmin (a b : ℚ) : ℚ := if qle a b then a else b

def qadd (a b : ℚ) : ℚ :=
  Rat.divInt (a.num * (b.den : ℤ) + b.num * (a.den : ℤ)) ((a.den : ℤ) * (b.den : ℤ))

def qmul (a b : ℚ) : ℚ := Rat.divInt (a.num * b.num) ((a.den : ℤ) * (b.den : ℤ))

/-- `(d : ℚ) / (m : ℚ)` for naturals. -/
def qdivNat (d m : Nat) : ℚ := Rat.divInt (d : ℤ) (m : ℤ)

/-- `1 - d/m` (the normalized edit-distance similarity). -/
def qoneSub (x : ℚ) : ℚ := qadd 1 (Rat.divInt (-x.num) (x.den : ℤ))

/-- `⌊q⌋`. -/
def qfloor (q : ℚ) : ℤ := q.num / (q.den : ℤ)

/-! ## Duplicate detection (`src/contacts/dedup.ts`)

Scores are modelled in `ℚ`; every value that arises (0, 0.5, 0.7, 0.9, 0.95,
a 0.15 boost, clamping at 1, rounding to two decimals) is computed identically
by IEEE doubles on these inputs.  The `matchedFields` diagnostic list carried
alongside the confidence is not modelled; no claim depends on it. -/

/-- The `levenshtein` dynamic-programming table of `dedup.ts`, as a recurrence:
`levD x y i j` is `dp[i][j]`, the distance between the first `i` characters of
`x` and the first `j` of `y` (memoization does not change the value). -/
def levD (x y : List Char) : Nat → Nat → Nat
  | 0, j => j
  | i + 1, 0 => i + 1
  | i + 1, j + 1 =>
    if x.getD i ' ' = y.getD j ' ' then levD x y i j
    else 1 + min (levD x y i (j + 1)) (min (levD x y (i + 1) j) (levD x y i j))
termination_by i j => (i, j)

def levenshtein (a b : String) : Nat :=
  levD a.data b.data a.data.length b.data.length

/-- `computeNameSimilarity` from `dedup.ts`. -/
def computeNameSimilarity (a b : Contact) : ℚ :=
  let nameA := strTrim (strToLower a.fullName)
  let nameB := strTrim (strToLower b.fullName)
  if nameA = nameB then 1
  else
    let givenA := strToLower (a.name.givenName.getD "")
    let familyA := strToLower (a.name.familyName.getD "")
    let givenB := strToLower (b.name.givenName.getD "")
    let familyB := strToLower (b.name.familyName.getD "")
    if givenA ≠ "" ∧ familyA ≠ "" ∧ givenB ≠ "" ∧ familyB ≠ "" ∧
        givenA = givenB ∧ familyA = familyB then 1
    else if givenA ≠ "" ∧ familyA ≠ "" ∧ givenB ≠ "" ∧ familyB ≠ "" ∧
        givenA = familyB ∧ familyA = givenB then Rat.divInt 9 10
    else if givenA ≠ "" ∧ givenB ≠ "" ∧ familyA ≠ "" ∧ familyB ≠ "" ∧
        familyA = familyB ∧ strTake givenA 1 = strTake givenB 1 ∧
        (givenA.length = 1 ∨ givenB.length = 1) then Rat.divInt 3 4
    else
      let levDist := levenshtein nameA nameB
      let maxLen := max nameA.length nameB.length
      if maxLen = 0 then 1 else qmax 0 (qoneSub (qdivNat levDist maxLen))

/-- Some normalized email value is shared (the `Set` intersection loop). -/
def emailShared (a b : Contact) : Bool :=
  a.emails.any (fun e => b.emails.any (fun f => normalizeEmail f.value = normalizeEmail e.value))

/-- Some normalized phone value is shared. -/
def phoneShared (lib : String → Option String) (a b : Contact) : Bool :=
  a.phones.any (fun p =>
    b.phones.any (fun q => normalizePhone lib q.value = normalizePhone lib p.value))

def orgName (c : Contact) : Option String :=
  c.organization.bind (fun o => o.name)

/-- `a.organization?.name && b.organization?.name && lowercase equality`. -/
def orgMatch (a b : Contact) : Bool :=
  strTruthy (orgName a) && strTruthy (orgName b) &&
    strToLower ((orgName a).getD "") = strToLower ((orgName b).getD "")

/-- `Math.round(score * 100) / 100` for the nonnegative scores arising here. -/
def jsRound2 (q : ℚ) : ℚ :=
  Rat.divInt (qfloor (qadd (qmul q 100) (Rat.divInt 1 2))) 100

/-- `score = Math.max(score, 0.95)` when a normalized email is shared. -/
def emailScore (a b : Contact) (s : ℚ) : ℚ :=
  if emailShared a b then qmax s (Rat.divInt 19 20) else s

/-- `score = Math.max(score, 0.90)` when a normalized phone is shared. -/
def phoneScore (lib : String → Option String) (a b : Contact) (s : ℚ) : ℚ :=
  if phoneShared lib a b then qmax s (Rat.divInt 9 10) else s

/-- Name-similarity contribution: ≥ 0.85 similarity raises the score to 0.70,
≥ 0.65 to 0.50, otherwise nothing. -/
def nameScore (a b : Contact) (s : ℚ) : ℚ :=
  if qle (Rat.divInt 17 20) (computeNameSimilarity a b) then qmax s (Rat.divInt 7 10)
  else if qle (Rat.divInt 13 20) (computeNameSimilarity a b) then qmax s (Rat.divInt 1 2)
  else s

/-- Organization boost: `+0.15` (clamped at 1) when both organizations match
and the score is already positive. -/
def orgScore (a b : Contact) (s : ℚ) : ℚ :=
  if orgMatch a b ∧ qlt 0 s then qmin 1 (qadd s (Rat.divInt 3 20)) else s

/-- `compareContacts` from `dedup.ts` (its confidence component): the four
score updates in source order, then rounding to two decimals. -/
def compareContacts (lib : String → Option String) (a b : Contact) : ℚ :=
  jsRound2 (orgScore a b (nameScore a b (phoneScore lib a b (emailScore a b 0))))

/-! ### Blocking (`buildBlocks`) -/

def firstCharLower (s : String) : String :=
  if s = "" then "" else strToLower (strTake s 1)

/-- The `name:<g><f>` blocking key (first letters of given/family name, with
display-name fallbacks), absent when both letters are empty. -/
def nameBlockKey (c : Contact) : Option String :=
  let g := firstCharLower (match c.name.givenName with
    | some s => s
    | none => (strSplitOn c.fullName " ").headD "")
  let f := firstCharLower (match c.name.familyName with
    | some s => s
    | none => (strSplitOn c.fullName " ").getLastD "")
  if g ≠ "" ∨ f ≠ "" then some ("name:" ++ g ++ f) else none

/-- `domain:<d>` keys: the part after the first `@`, lowercased, when nonempty. -/
def emailBlockKeys (c : Contact) : List String :=
  c.emails.foldr (fun e acc =>
    let parts := strSplitOn e.value "@"
    if parts.length ≥ 2 then
      let d := strToLower (parts.getD 1 "")
      if d ≠ "" then ("domain:" ++ d) :: acc else acc
    else acc) []

/-- `phone:<last 7 digits>` keys, when at least 7 digits are present. -/
def phoneBlockKeys (c : Contact) : List String :=
  c.phones.foldr (fun p acc =>
    let digits := String.mk (p.value.data.filter Char.isDigit)
    if digits.length ≥ 7 then ("phone:" ++ strTakeRight digits 7) :: acc else acc) []

/-- `Set` of keys: deduplicated, insertion order kept. -/
def dedupKeys (ks : List String) : List String :=
  ks.foldl (fun acc k => if acc.contains k then acc else acc ++ [k]) []

def blockKeys (c : Contact) : List String :=
  dedupKeys ((match nameBlockKey c with | some k => [k] | none => []) ++
    emailBlockKeys c ++ phoneBlockKeys c)

/-- Insertion-ordered `Map<string, Contact[]>`. -/
def addToBlocks (blocks : List (String × List Contact)) (k : String) (c : Contact) :
    List (String × List Contact) :=
  if blocks.any (fun kv => kv.1 = k) then
    blocks.map (fun kv => if kv.1 = k then (kv.1, kv.2 ++ [c]) else kv)
  else blocks ++ [(k, [c])]

def buildBlocks (contacts : List Contact) : List (String × List Contact) :=
  contacts.foldl (fun blocks c =>
    (blockKeys c).foldl (fun blocks k => addToBlocks blocks k c) blocks) []

/-! ### `findDuplicates` -/

structure DupCandidate where
  idA : String
  idB : String
  confidence : ℚ
deriving DecidableEq, Repr

/-- `[a.id, b.id].sort().join(':')`. -/
def pairKey (a b : Contact) : String :=
  if jsStrLe a.id b.id then a.id ++ ":" ++ b.id else b.id ++ ":" ++ a.id

/-- Ordered pairs `(block[i], block[j])`, `i < j`. -/
def blockPairs : List Contact → List (Contact × Contact)
  | [] => []
  | c :: rest => rest.map (fun d => (c, d)) ++ blockPairs rest

/-- Body of the pair loop: global once-per-pair dedup via `seen`, then score
and keep the candidate when it meets the threshold. -/
def scanPair (lib : String → Option String) (threshold : ℚ)
    (st : List String × List DupCandidate) (pair : Contact × Contact) :
    List String × List DupCandidate :=
  let key := pairKey pair.1 pair.2
  if st.1.contains key then st
  else
    let conf := compareContacts lib pair.1 pair.2
    if qle threshold conf then
      (st.1 ++ [key], st.2 ++ [{ idA := pair.1.id, idB := pair.2.id, confidence := conf }])
    else (st.1 ++ [key], st.2)

/-- Stable insertion preserving the order of equal confidences (JS sort with
comparator `b.confidence - a.confidence` is stable). -/
def insertDesc (x : DupCandidate) : List DupCandidate → List DupCandidate
  | [] => [x]
  | y :: ys => if qlt y.confidence x.confidence then x :: y :: ys else y :: insertDesc x ys

def sortDesc (l : List DupCandidate) : List DupCandidate :=
  l.foldl (fun acc x => insertDesc x acc) []

/-- `findDuplicates` from `dedup.ts` (candidates carry the two ids and the
confidence). -/
def findDuplicates (lib : String → Option String) (contacts : List Contact)
    (threshold : ℚ := Rat.divInt 3 5) (limit : Nat := 50) : List DupCandidate :=
  let blocks := buildBlocks contacts
  let st := blocks.foldl (fun st kv => (blockPairs kv.2).foldl (scanPair lib threshold) st)
    (([], []) : List String × List DupCandidate)
  (sortDesc st.2).take limit

/-! ## Merge resolver (`src/contacts/merge.ts`)

`new Date(s).getTime()` on the stored ISO timestamp strings is modelled by an
explicit valuation `dv : String → Int`; `new Date().toISOString()` by `now`.
`structuredClone` is the identity on immutable Lean values. -/

inductive MergeStrategy
  | union
  | keepNewest
  | keepOldest
deriving DecidableEq, Repr

structure MergeResult where
  mergedContact : Contact
  sourceContactIds : List String
  fieldsFromEach : List (String × String)
deriving DecidableEq, Repr

/-- Stable insertion for a JS comparator: `x` goes before `y` iff
`cmp x y < 0`, equal elements keep their original order. -/
def insertCmp (cmp : Contact → Contact → Int) (x : Contact) :
    List Contact → List Contact
  | [] => [x]
  | y :: ys => if cmp x y < 0 then x :: y :: ys else y :: insertCmp cmp x ys

def jsSortBy (cmp : Contact → Contact → Int) (l : List Contact) : List Contact :=
  l.foldl (fun acc x => insertCmp cmp x acc) []

/-- `mergeKeepNewest`: whole record of the latest `modified` input. -/
def mergeKeepNewest (dv : String → Int) (contacts : List Contact) : Option Contact :=
  (jsSortBy (fun a b => dv b.metadata.modified - dv a.metadata.modified) contacts).head?

/-- `mergeKeepOldest`: whole record of the earliest `modified` input. -/
def mergeKeepOldest (dv : String → Int) (contacts : List Contact) : Option Contact :=
  (jsSortBy (fun a b => dv a.metadata.modified - dv b.metadata.modified) contacts).head?

/-- `[primary.notes, other.notes].filter(Boolean).join('\n---\n')`. -/
def joinNotes (a b : Option String) : String :=
  String.intercalate "\n---\n" (([a, b].filterMap id).filter (· ≠ ""))

/-- `mergeUnion`: take the longer display name together with its structured
name. -/
def unionNameStep (acc other : Contact) : Contact :=
  if other.fullName.length > acc.fullName.length then
    { acc with fullName := other.fullName, name := other.name }
  else acc

/-- `mergeUnion`: append the other record's emails missing by lowercase value. -/
def unionEmailsStep (acc other : Contact) : Contact :=
  let merged := other.emails.foldl
    (fun es e => if es.any (fun x => strToLower x.value = strToLower e.value) then es
                   else es ++ [e])
    acc.emails
  { acc with emails := merged }

/-- `mergeUnion`: append phones missing by exact value. -/
def unionPhonesStep (acc other : Contact) : Contact :=
  let merged := other.phones.foldl
    (fun ps p => if ps.any (fun x => x.value = p.value) then ps else ps ++ [p])
    acc.phones
  { acc with phones := merged }

/-- `mergeUnion`: append addresses missing by structural equality (the
source compares `JSON.stringify` images; record equality coincides for the
addresses this repository constructs). -/
def unionAddrsStep (acc other : Contact) : Contact :=
  let merged := other.addresses.foldl
    (fun as_ a => if as_.any (fun x => x = a) then as_ else as_ ++ [a])
    acc.addresses
  { acc with addresses := merged }

/-- `mergeUnion`: fill the organization only when the accumulator lacks one. -/
def unionOrgStep (acc other : Contact) : Contact :=
  if ¬ strTruthy (acc.organization.bind (fun o => o.name)) ∧
      strTruthy (other.organization.bind (fun o => o.name)) then
    { acc with organization := other.organization }
  else acc

/-- `mergeUnion`: fill the birthday only when the accumulator lacks one. -/
def unionBirthdayStep (acc other : Contact) : Contact :=
  if ¬ strTruthy acc.birthday ∧ strTruthy other.birthday then
    { acc with birthday := other.birthday }
  else acc

/-- `mergeUnion`: append urls missing by exact value. -/
def unionUrlsStep (acc other : Contact) : Contact :=
  let merged := other.urls.foldl
    (fun us u => if us.any (fun x => x.value = u.value) then us else us ++ [u])
    acc.urls
  { acc with urls := merged }

/-- `mergeUnion`: append the other record's note unless it is falsy or equal
to the accumulated note text. -/
def unionNotesStep (acc other : Contact) : Contact :=
  if strTruthy other.notes ∧ other.notes ≠ acc.notes then
    { acc with notes := some (joinNotes acc.notes other.notes) }
  else acc

/-- `mergeUnion`: append categories missing by exact value. -/
def unionCatsStep (acc other : Contact) : Contact :=
  let merged := other.categories.foldl
    (fun cs c => if cs.contains c then cs else cs ++ [c])
    acc.categories
  { acc with categories := merged }

/-- `mergeUnion`: fill the photo only when the accumulator lacks one. -/
def unionPhotoStep (acc other : Contact) : Contact :=
  if ¬ strTruthy acc.photo ∧ strTruthy other.photo then
    { acc with photo := other.photo }
  else acc

/-- `mergeUnion`: keep the earliest `created` timestamp. -/
def unionCreatedStep (dv : String → Int) (acc other : Contact) : Contact :=
  if dv other.metadata.created < dv acc.metadata.created then
    { acc with metadata := { acc.metadata with created := other.metadata.created } }
  else acc

/-- One iteration of the `mergeUnion` accumulation loop, in source order. -/
def unionStep (dv : String → Int) (acc other : Contact) : Contact :=
  unionCreatedStep dv
    (unionPhotoStep
      (unionCatsStep
        (unionNotesStep
          (unionUrlsStep
            (unionBirthdayStep
              (unionOrgStep
                (unionAddrsStep
                  (unionPhonesStep
                    (unionEmailsStep (unionNameStep acc other) other)
                    other)
                  other)
                other)
              other)
            other)
          other)
        other)
      other)
    other

/-- `mergeUnion`: accumulate into a clone of the primary. -/
def mergeUnion (dv : String → Int) (contacts : List Contact) : Option Contact :=
  match contacts with
  | [] => none
  | c0 :: rest => some (rest.foldl (unionStep dv) c0)

/-- `applyFieldOverride`: known fields are overwritten from `source`, unknown
field names are a no-op. -/
def applyFieldOverride (target source : Contact) (field : String) : Contact :=
  if field = "fullName" then { target with fullName := source.fullName, name := source.name }
  else if field = "emails" then { target with emails := source.emails }
  else if field = "phones" then { target with phones := source.phones }
  else if field = "addresses" then { target with addresses := source.addresses }
  else if field = "organization" then { target with organization := source.organization }
  else if field = "birthday" then { target with birthday := source.birthday }
  else if field = "notes" then { target with notes := source.notes }
  else if field = "categories" then { target with categories := source.categories }
  else if field = "photo" then { target with photo := source.photo }
  else target

/-- JS falsiness of an object-lookup result: missing key or empty string. -/
def jsFalsy : Option String → Bool
  | none => true
  | some s => s = ""

/-- `merged.metadata.providerIds[provider] = remoteId`: replace a present key in
place, append a new one. -/
def setAssoc (m : List (String × String)) (k v : String) : List (String × String) :=
  if (m.lookup k).isSome then m.map (fun kv => if kv.1 = k then (kv.1, v) else kv)
  else m ++ [(k, v)]

/-- One provider entry: `if (!merged.providerIds[provider]) merged.providerIds[provider] = remoteId`. -/
def addProvider (m : List (String × String)) (kv : String × String) :
    List (String × String) :=
  if jsFalsy (m.lookup kv.1) then setAssoc m kv.1 kv.2 else m

/-- All entries of one source record, in insertion order. -/
def addProviders (m : List (String × String)) (es : List (String × String)) :
    List (String × String) :=
  es.foldl addProvider m

/-- The provider-id merge loop of `mergeContacts`: for every source record in
list order, adopt each of its entries unless the key is already present with a
truthy value. -/
def foldProviders (m0 : List (String × String)) (cs : List Contact) :
    List (String × String) :=
  cs.foldl (fun m c => addProviders m c.metadata.providerIds) m0

/-- Specification helper (for the provider-id claims): the value mapped by the
earliest record in list order that has an entry for the given system. -/
def listFirstProvider : List Contact → String → Option String
  | [], _ => none
  | c :: rest, k =>
    match c.metadata.providerIds.lookup k with
    | some v => some v
    | none => listFirstProvider rest k

/-- Specification helper: every entry of an association list carries a
non-empty value (JS truthy provider ids). -/
def nzAssoc (m : List (String × String)) : Prop := ∀ e ∈ m, e.2 ≠ ""

/-- `mergeContacts` from `merge.ts`. -/
def mergeContacts (dv : String → Int) (now : String) (contacts : List Contact)
    (strategy : MergeStrategy) (fieldOverrides : List (String × String)) :
    Except String MergeResult :=
  match contacts with
  | [] => .error "Need at least 2 contacts to merge"
  | [_] => .error "Need at least 2 contacts to merge"
  | c0 :: c1 :: rest =>
    let all := c0 :: c1 :: rest
    let merged0 :=
      match strategy with
      | .keepNewest => (mergeKeepNewest dv all).getD c0
      | .keepOldest => (mergeKeepOldest dv all).getD c0
      | .union => (mergeUnion dv all).getD c0
    let st := fieldOverrides.foldl
      (fun (st : Contact × List (String × String)) kv =>
        match all.find? (fun c => c.id = kv.2) with
        | none => st
        | some src => (applyFieldOverride st.1 src kv.1, st.2 ++ [(kv.1, kv.2)]))
      (merged0, [])
    let md1 := { st.1.metadata with modified := now, archived := false }
    let merged1 := { st.1 with id := c0.id, metadata := md1 }
    let merged2 := { merged1 with metadata :=
      { merged1.metadata with providerIds := foldProviders merged1.metadata.providerIds all } }
    .ok { mergedContact := merged2
          sourceContactIds := all.map (fun c => c.id)
          fieldsFromEach := st.2 }

/-! ## Versioned record store (`src/store/git-store.ts`)

State-passing model of the filesystem (one text file per record in the active
and archived areas) and of the git history (commit hashes newest first, plus a
tag list).  The store-wide lock serialises mutations and is orthogonal to the
per-operation functional behaviour modelled here. -/

inductive StoreErr
  | notFound (id : String)
  | storeError (msg : String)
deriving DecidableEq, Repr

structure StoreFs where
  active : List (String × String)
  archived : List (String × String)
deriving DecidableEq, Repr

def removeAssoc (m : List (String × String)) (k : String) : List (String × String) :=
  m.filter (fun kv => kv.1 ≠ k)

namespace GitStore

/-- `get`: active area first, then archived; `ContactNotFoundError` when the
file is in neither (ENOENT on both reads). -/
def get (now : String) (st : StoreFs) (id : String) : Except StoreErr Contact :=
  match st.active.lookup id with
  | some v => .ok (vcardToContact now v)
  | none =>
    match st.archived.lookup id with
    | some v => .ok (vcardToContact now v)
    | none => .error (.notFound id)

/-- `delete`: re-raise `get`'s NotFound; permanent removal takes the file from
whichever area holds it (`git rm` on the active path, falling back to the
archive path); soft delete renames active → archived. -/
def delete (now : String) (st : StoreFs) (id : String) (permanent : Bool) :
    Except StoreErr StoreFs :=
  match get now st id with
  | .error e => .error e
  | .ok _ =>
    if permanent then
      if (st.active.lookup id).isSome then
        .ok { st with active := removeAssoc st.active id }
      else if (st.archived.lookup id).isSome then
        .ok { st with archived := removeAssoc st.archived id }
      else .error (.storeError "git rm failed")
    else
      match st.active.lookup id with
      | some v =>
        .ok { active := removeAssoc st.active id, archived := setAssoc st.archived id v }
      | none => .error (.storeError "rename failed")

/-- A TS partial-name object (`updates.name`), spread over the existing name:
fields carried by the patch override, the rest are kept. -/
structure NamePatch where
  pre : Option String := none
  givenName : Option String := none
  middleName : Option String := none
  familyName : Option String := none
  suf : Option String := none
deriving DecidableEq, Repr

def patchField (new old : Option String) : Option String :=
  match new with
  | some v => some v
  | none => old

def patchName (old : ContactName) (p : NamePatch) : ContactName :=
  { pre := patchField p.pre old.pre
    givenName := patchField p.givenName old.givenName
    middleName := patchField p.middleName old.middleName
    familyName := patchField p.familyName old.familyName
    suf := patchField p.suf old.suf }

/-- `Partial<Omit<Contact, 'id' | 'metadata'>>`: a field is applied iff it is
present (`!== undefined`); a present empty value (empty string, empty list) is
applied like any other value. -/
structure ContactUpdate where
  fullName : Option String := none
  name : Option NamePatch := none
  emails : Option (List ContactEmail) := none
  phones : Option (List ContactPhone) := none
  addresses : Option (List ContactAddress) := none
  organization : Option (Option ContactOrganization) := none
  birthday : Option String := none
  anniversary : Option String := none
  urls : Option (List ContactUrl) := none
  notes : Option String := none
  categories : Option (List String) := none
  photo : Option String := none
deriving DecidableEq, Repr

/-- The field-application section of `update`, with its `changedFields`
bookkeeping. -/
def applyUpdates (existing : Contact) (u : ContactUpdate) : Contact × List String :=
  let st := (existing, ([] : List String))
  let st := match u.fullName with
    | some fn =>
      if fn ≠ st.1.fullName then ({ st.1 with fullName := fn }, st.2 ++ ["name"]) else st
    | none => st
  let st := match u.name with
    | some p =>
      ({ st.1 with name := patchName st.1.name p },
        if st.2.contains "name" then st.2 else st.2 ++ ["name"])
    | none => st
  let st := match u.emails with
    | some es => ({ st.1 with emails := es }, st.2 ++ ["emails"])
    | none => st
  let st := match u.phones with
    | some ps => ({ st.1 with phones := ps }, st.2 ++ ["phones"])
    | none => st
  let st := match u.addresses with
    | some as_ => ({ st.1 with addresses := as_ }, st.2 ++ ["addresses"])
    | none => st
  let st := match u.organization with
    | some o => ({ st.1 with organization := o }, st.2 ++ ["organization"])
    | none => st
  let st := match u.birthday with
    | some b => ({ st.1 with birthday := some b }, st.2 ++ ["birthday"])
    | none => st
  let st := match u.anniversary with
    | some a => ({ st.1 with anniversary := some a }, st.2 ++ ["anniversary"])
    | none => st
  let st := match u.urls with
    | some us => ({ st.1 with urls := us }, st.2 ++ ["urls"])
    | none => st
  let st := match u.notes with
    | some n => ({ st.1 with notes := some n }, st.2 ++ ["notes"])
    | none => st
  let st := match u.categories with
    | some cs => ({ st.1 with categories := cs }, st.2 ++ ["categories"])
    | none => st
  match u.photo with
  | some p => ({ st.1 with photo := some p }, st.2 ++ ["photo"])
  | none => st

/-- `update` on the loaded record: apply the present fields, advance
`modified` to `now`, re-normalize; the result is what is re-encoded to disk
and returned. -/
def update (lib : String → Option String) (now : String) (existing : Contact)
    (u : ContactUpdate) : Contact :=
  let applied := (applyUpdates existing u).1
  normalizeContact lib
    { applied with metadata := { applied.metadata with modified := now } }

/-! ### `rollback` -/

structure GitState where
  /-- commit hashes, newest first (`git log` order) -/
  commits : List String
  tags : List String
deriving DecidableEq, Repr

inductive RollbackMode
  | lastN
  | toCommit
  | toTag
deriving DecidableEq, Repr

structure RollbackOptions where
  mode : RollbackMode
  count : Option Nat := none
  commitHash : Option String := none
  tagName : Option String := none
  dryRun : Bool := false
deriving DecidableEq, Repr

/-- The revert loop: `git revert` each target (newest first), each success
prepending a new inverse commit; stop at the first failure (`rf h = true`)
and report how many succeeded. -/
def revertLoop (rf : String → Bool) (targets : List String) (st : GitState) :
    GitState × Nat :=
  match targets with
  | [] => (st, 0)
  | h :: rest =>
    if rf h then (st, 0)
    else
      let res := revertLoop rf rest { st with commits := ("revert-" ++ h) :: st.commits }
      (res.1, res.2 + 1)

/-- `rollback`: tag a safety checkpoint first, then (unless a dry run) revert
according to the mode.  `rf` models which `git revert` calls throw.  The git
state is returned in every outcome, the thrown `StoreError`s as `Except`. -/
def rollback (rf : String → Bool) (now : String) (st : GitState)
    (opts : RollbackOptions) : GitState × Except StoreErr (Nat × String) :=
  let tag := "pre-rollback-" ++ now
  let st1 := { st with tags := st.tags ++ [tag] }
  if opts.dryRun then (st1, .ok (0, tag))
  else
    match opts.mode with
    | .lastN =>
      let log := st1.commits.take (opts.count.getD 1)
      let res := revertLoop rf log st1
      (res.1, .ok (res.2, tag))
    | .toCommit =>
      match opts.commitHash with
      | none => (st1, .error (.storeError "commitHash required for to-commit mode"))
      | some h =>
        let log := st1.commits.take 100
        let targets := log.takeWhile (fun e => ¬(e = h ∨ strStartsWith e h = true))
        let res := revertLoop rf targets st1
        (res.1, .ok (res.2, tag))
    | .toTag =>
      match opts.tagName with
      | none => (st1, .error (.storeError "tagName required for to-tag mode"))
      | some t =>
        if ¬ st1.tags.contains t then
          (st1, .error (.storeError ("Tag not found: " ++ t)))
        else
          let log := st1.commits.take 100
          let res := revertLoop rf log st1
          (res.1, .ok (res.2, tag))

end GitStore

/-! ## Concrete instances used by the theorems below -/

/-- External phone parser that always fails (contacts below carry no phones,
or phones that the fallback leaves unchanged). -/
def libNone : String → Option String := fun _ => none

/-- A concrete `new Date(s).getTime()` valuation for the timestamp strings
used below (longer string = later time). -/
def dvLen : String → Int := fun s => (s.length : Int)

def mdEx : ContactMetadata :=
  { created := "2020-01-01T00:00:00Z", modified := "2020-01-02T00:00:00Z" }

/-- Round-trip probe: a structured-name part containing a literal `;`. -/
def conSemi : Contact :=
  { id := "x1", fullName := "Ann Smith"
    name := { givenName := some "Ann", familyName := some "Smith;Jones" }
    metadata := mdEx }

/-- Round-trip probe: a note containing a literal backslash followed by `n`. -/
def conBsn : Contact :=
  { id := "x2", fullName := "Bo Ek"
    name := { givenName := some "Bo", familyName := some "Ek" }
    notes := some ("a" ++ "\\" ++ "nb")
    metadata := mdEx }

/-- Duplicate pair sharing an email and an organization name. -/
def dupA : Contact :=
  { id := "a", fullName := "Jane Doe", emails := [{ value := "jane@x.com" }]
    organization := some { name := some "Acme" }, metadata := mdEx }

def dupB : Contact :=
  { id := "b", fullName := "Jane Doe", emails := [{ value := "jane@x.com" }]
    organization := some { name := some "Acme" }, metadata := mdEx }

/-- Same pair without the second organization. -/
def dupBNoOrg : Contact := { dupB with organization := none }

/-- A record that is a fixed point of normalization (lower-case email, no
strippable phone characters, trimmed names). -/
def fixC : Contact :=
  { id := "f1", fullName := "Bob Jones"
    name := { givenName := some "Bob", familyName := some "Jones" }
    emails := [{ value := "bob@x.com", etype := some "work", primary := true }]
    phones := [{ value := "+15551234567" }]
    urls := [{ value := "https://example.com" }]
    notes := some "old note"
    categories := ["work"]
    metadata := { mdEx with providerIds := [("google", "g-1")] } }

/-- Swapped-name pair: John Smith vs Smith John. -/
def swapA : Contact :=
  { id := "s1", fullName := "John Smith"
    name := { givenName := some "John", familyName := some "Smith" }
    metadata := mdEx }

def swapB : Contact :=
  { id := "s2", fullName := "Smith John"
    name := { givenName := some "Smith", familyName := some "John" }
    metadata := mdEx }

/-- Provider-id merge probes: `provOld` is first in the list but `provNew` has
the later `modified` timestamp, and they map `google` to different ids. -/
def provOld : Contact :=
  { id := "A", fullName := "Jane"
    metadata := { created := "c", modified := "old", providerIds := [("google", "g-1")] } }

def provNew : Contact :=
  { id := "B", fullName := "Jane"
    metadata := { created := "c", modified := "newer", providerIds := [("google", "g-2")] } }

def provFm : Contact :=
  { id := "C", fullName := "Jane"
    metadata := { created := "c", modified := "x", providerIds := [("fastmail", "fm-456")] } }

/-- Note-merge probes: an identical note (`x`) on the first and third record. -/
def noteA : Contact := { id := "N1", fullName := "J", notes := some "x", metadata := mdEx }
def noteB : Contact := { id := "N2", fullName := "J", notes := some "y", metadata := mdEx }
def noteC : Contact := { id := "N3", fullName := "J", notes := some "x", metadata := mdEx }

/-- Git history with two commits and no tags; reverts that always succeed. -/
def gitEx : GitStore.GitState := { commits := ["aaa1", "bbb2"], tags := [] }
def rfNone : String → Bool := fun _ => false

/-- A store with one active and one (distinct) archived record. -/
def fsEx : StoreFs := { active := [("A", contactToVCard fixC)], archived := [] }

/-- A 150-character ASCII logical line (folds into a 76-octet physical line). -/
def lineLongAscii : String := String.mk (List.replicate 150 'a')

/-- 72 ASCII bytes, then an emoji (U+1F600, a surrogate pair in UTF-16), then
five more characters: the fold boundary lands inside the pair. -/
def lineEmoji : String :=
  String.mk (List.replicate 72 'a') ++ String.singleton (Char.ofNat 0x1F600)
    ++ String.mk (List.replicate 5 'b')

/-- The record as a notes-only update leaves it: only `notes` and
`metadata.modified` change. -/
def notesUpdated (c : Contact) (x now : String) : Contact :=
  { c with notes := some x, metadata := { c.metadata with modified := now } }

/-! ## Lemmas: the rational primitives agree with the standard operations -/

theorem qle_iff (a b : ℚ) : qle a b = true ↔ a ≤ b := by
  simp [qle, Rat.le_def]

theorem qlt_iff (a b : ℚ) : qlt a b = true ↔ a < b := by
  simp [qlt, Rat.lt_def]

theorem qmax_eq (a b : ℚ) : qmax a b = max a b := by
  by_cases h : a ≤ b
  · rw [qmax, if_pos ((qle_iff a b).mpr h), max_eq_right h]
  · rw [qmax, if_neg (fun hc => h ((qle_iff a b).mp hc)),
      max_eq_left (le_of_not_le h)]

theorem qmin_eq (a b : ℚ) : qmin a b = min a b := by
  by_cases h : a ≤ b
  · rw [qmin, if_pos ((qle_iff a b).mpr h), min_eq_left h]
  · rw [qmin, if_neg (fun hc => h ((qle_iff a b).mp hc)),
      min_eq_right (le_of_not_le h)]

theorem qadd_eq (a b : ℚ) : qadd a b = a + b := by
  have ha : ((a.den : ℚ)) ≠ 0 := Nat.cast_ne_zero.mpr a.den_nz
  have hb : ((b.den : ℚ)) ≠ 0 := Nat.cast_ne_zero.mpr b.den_nz
  have hA : a * (a.den : ℚ) = (a.num : ℚ) := by
    nth_rewrite 1 [← Rat.num_div_den a]
    exact div_mul_cancel₀ _ ha
  have hB : b * (b.den : ℚ) = (b.num : ℚ) := by
    nth_rewrite 1 [← Rat.num_div_den b]
    exact div_mul_cancel₀ _ hb
  rw [qadd, Rat.divInt_eq_div]
  push_cast
  rw [div_eq_iff (mul_ne_zero ha hb), ← hA, ← hB]
  ring

theorem qmul_eq (a b : ℚ) : qmul a b = a * b := by
  have ha : ((a.den : ℚ)) ≠ 0 := Nat.cast_ne_zero.mpr a.den_nz
  have hb : ((b.den : ℚ)) ≠ 0 := Nat.cast_ne_zero.mpr b.den_nz
  have hA : a * (a.den : ℚ) = (a.num : ℚ) := by
    nth_rewrite 1 [← Rat.num_div_den a]
    exact div_mul_cancel₀ _ ha
  have hB : b * (b.den : ℚ) = (b.num : ℚ) := by
    nth_rewrite 1 [← Rat.num_div_den b]
    exact div_mul_cancel₀ _ hb
  rw [qmul, Rat.divInt_eq_div]
  push_cast
  rw [div_eq_iff (mul_ne_zero ha hb), ← hA, ← hB]
  ring

theorem qdivNat_eq (d m : Nat) : qdivNat d m = (d : ℚ) / (m : ℚ) := by
  rw [qdivNat, Rat.divInt_eq_div]
  push_cast
  rfl

theorem qoneSub_eq (x : ℚ) : qoneSub x = 1 - x := by
  rw [qoneSub, qadd_eq, Rat.divInt_eq_div]
  push_cast
  rw [neg_div, Rat.num_div_den]
  ring

theorem qfloor_eq (q : ℚ) : qfloor q = ⌊q⌋ := by
  rw [qfloor, Rat.floor_def]

theorem jsRound2_eq (q : ℚ) : jsRound2 q = ((⌊q * 100 + 1/2⌋ : ℤ) : ℚ) / 100 := by
  rw [jsRound2, qfloor_eq, qadd_eq, qmul_eq, Rat.divInt_eq_div, Rat.divInt_eq_div]
  norm_num

/-! ## Claim C2: confidence for a shared email -/

/-- Claim C2 (amended): when two contacts share a normalized email value, the
pairwise confidence is exactly 0.95 regardless of any differences in the other
fields — unless both contacts also carry the same non-empty organization name
(case-insensitively), in which case the organization boost raises it to
exactly 1.0.  (`findDuplicates` reports this confidence for the pair whenever
they additionally share a blocking key and it meets the threshold.) -/
theorem compareContacts_shared_email (lib : String → Option String) (a b : Contact)
    (he : emailShared a b = true) :
    (orgMatch a b = false → compareContacts lib a b = 19/20)
    ∧ (orgMatch a b = true → compareContacts lib a b = 1) := by
  have h1 : emailScore a b 0 = Rat.divInt 19 20 := by
    rw [emailScore, if_pos he]; decide
  have h2 : phoneScore lib a b (Rat.divInt 19 20) = Rat.divInt 19 20 := by
    rw [phoneScore]; split <;> rfl
  have h3 : nameScore a b (Rat.divInt 19 20) = Rat.divInt 19 20 := by
    rw [nameScore]; split_ifs <;> rfl
  have h1920 : Rat.divInt 19 20 = (19/20 : ℚ) := by
    rw [Rat.divInt_eq_div]; norm_num
  rw [compareContacts, h1, h2, h3]
  constructor
  · intro horg
    rw [orgScore, if_neg (fun hc => by rw [horg] at hc; exact Bool.false_ne_true hc.1)]
    rw [← h1920]; rfl
  · intro horg
    rw [orgScore, if_pos ⟨horg, by decide⟩]
    rfl

/-- Claim C2, witness: the shared-email pair without matching organizations
scores exactly 0.95. -/
theorem compareContacts_shared_email_witness :
    compareContacts libNone dupA dupBNoOrg = 19/20 :=
  (compareContacts_shared_email libNone dupA dupBNoOrg (by decide)).1 (by decide)

/-- Claim C2, counterexample: two contacts sharing an email *and* a non-empty
organization name are reported by `findDuplicates` with confidence 1.0, not
0.95 — the organization boost applies on top of the email score. -/
theorem findDuplicates_shared_email_org_boost :
    findDuplicates libNone [dupA, dupB] = [{ idA := "a", idB := "b", confidence := 1 }]
    ∧ (1 : ℚ) ≠ 19/20 := by
  constructor
  · decide
  · norm_num

/-! ## Claim C3: `update` with a notes-only partial map -/

/-- Claim C3: for a stored record that is a fixed point of normalization (as
every record written by the store is), `update(id, (notes: x))` leaves every
field other than `notes` identical to its pre-update value — including every
metadata field other than `modified` — applies `notes := x` (also when `x` is
empty, distinguishing an explicitly cleared value from an omitted field), sets
`modified` to the operation time, and `modified` strictly increases whenever
the clock has advanced past the stored timestamp. -/
theorem update_notes_frame (lib : String → Option String) (now x : String) (c : Contact)
    (hfix : normalizeContact lib c = c) :
    GitStore.update lib now c { notes := some x } = notesUpdated c x now
    ∧ (notesUpdated c x now).id = c.id
    ∧ (notesUpdated c x now).fullName = c.fullName
    ∧ (notesUpdated c x now).name = c.name
    ∧ (notesUpdated c x now).emails = c.emails
    ∧ (notesUpdated c x now).phones = c.phones
    ∧ (notesUpdated c x now).addresses = c.addresses
    ∧ (notesUpdated c x now).organization = c.organization
    ∧ (notesUpdated c x now).birthday = c.birthday
    ∧ (notesUpdated c x now).anniversary = c.anniversary
    ∧ (notesUpdated c x now).urls = c.urls
    ∧ (notesUpdated c x now).categories = c.categories
    ∧ (notesUpdated c x now).photo = c.photo
    ∧ (notesUpdated c x now).metadata.created = c.metadata.created
    ∧ (notesUpdated c x now).metadata.source = c.metadata.source
    ∧ (notesUpdated c x now).metadata.providerIds = c.metadata.providerIds
    ∧ (notesUpdated c x now).metadata.archived = c.metadata.archived
    ∧ (notesUpdated c x now).metadata.etag = c.metadata.etag
    ∧ (notesUpdated c x now).notes = some x
    ∧ (notesUpdated c x now).metadata.modified = now
    ∧ (jsStrLt c.metadata.modified now = true →
        jsStrLt c.metadata.modified
          (GitStore.update lib now c { notes := some x }).metadata.modified = true) := by
  have happ : GitStore.applyUpdates c { notes := some x }
      = ({ c with notes := some x }, ["notes"]) := rfl
  have hE := congrArg Contact.emails hfix
  have hP := congrArg Contact.phones hfix
  have hF := congrArg Contact.fullName hfix
  have hN := congrArg Contact.name hfix
  simp only [normalizeContact] at hE hP hF hN
  have hmain : GitStore.update lib now c { notes := some x } = notesUpdated c x now := by
    simp only [GitStore.update, happ, normalizeContact, notesUpdated]
    simp only [hE, hP, hF, hN]
  refine ⟨hmain, rfl, rfl, rfl, rfl, rfl, rfl, rfl, rfl, rfl, rfl, rfl, rfl, rfl, rfl,
    rfl, rfl, rfl, rfl, rfl, fun hlt => by rw [hmain]; exact hlt⟩

/-- Claim C3, witness: a concrete normalized record updated with a new note at
a later timestamp. -/
theorem update_notes_frame_witness :
    GitStore.update libNone "2020-01-03T00:00:00Z" fixC { notes := some "new" }
      = notesUpdated fixC "new" "2020-01-03T00:00:00Z"
    ∧ jsStrLt fixC.metadata.modified "2020-01-03T00:00:00Z" = true
    ∧ (GitStore.update libNone "2020-01-03T00:00:00Z" fixC { notes := some "new" }).notes
        = some "new" :=
  ⟨(update_notes_frame libNone "2020-01-03T00:00:00Z" "new" fixC (by decide)).1,
   by decide,
   by rw [(update_notes_frame libNone "2020-01-03T00:00:00Z" "new" fixC (by decide)).1]; rfl⟩

/-! ## Claim C8: swapped given/family names -/

/-- Claim C8: when both contacts have non-empty given and family parts, the
given name of each equals the family name of the other (case-insensitively),
the full lowercase names differ and the parts are not directly equal, the name
similarity is exactly 0.90; this falls in the ≥ 0.85 bucket, so (absent email,
phone and organization signals) the pair's confidence is 0.70, not 0.50. -/
theorem computeNameSimilarity_swapped (lib : String → Option String) (a b : Contact)
    (hne : strTrim (strToLower a.fullName) ≠ strTrim (strToLower b.fullName))
    (hga : strToLower (a.name.givenName.getD "") ≠ "")
    (hfa : strToLower (a.name.familyName.getD "") ≠ "")
    (hgb : strToLower (b.name.givenName.getD "") ≠ "")
    (hfb : strToLower (b.name.familyName.getD "") ≠ "")
    (hs1 : strToLower (a.name.givenName.getD "") = strToLower (b.name.familyName.getD ""))
    (hs2 : strToLower (a.name.familyName.getD "") = strToLower (b.name.givenName.getD ""))
    (hnd : ¬(strToLower (a.name.givenName.getD "") = strToLower (b.name.givenName.getD "")
      ∧ strToLower (a.name.familyName.getD "") = strToLower (b.name.familyName.getD "")))
    (hemail : emailShared a b = false)
    (hphone : phoneShared lib a b = false)
    (horg : orgMatch a b = false) :
    computeNameSimilarity a b = 9/10 ∧ ((9:ℚ)/10 ≥ 17/20)
      ∧ compareContacts lib a b = 7/10 := by
  have hsim : computeNameSimilarity a b = Rat.divInt 9 10 := by
    simp only [computeNameSimilarity]
    rw [if_neg hne, if_neg (fun h => hnd ⟨h.2.2.2.2.1, h.2.2.2.2.2⟩),
      if_pos ⟨hga, hfa, hgb, hfb, hs1, hs2⟩]
  have h910 : Rat.divInt 9 10 = (9/10 : ℚ) := by rw [Rat.divInt_eq_div]; norm_num
  have h710 : Rat.divInt 7 10 = (7/10 : ℚ) := by rw [Rat.divInt_eq_div]; norm_num
  refine ⟨by rw [hsim, h910], by norm_num, ?_⟩
  have h1 : emailScore a b 0 = 0 := by
    rw [emailScore, if_neg (fun hc => by rw [hemail] at hc; exact Bool.false_ne_true hc)]
  have h2 : phoneScore lib a b 0 = 0 := by
    rw [phoneScore, if_neg (fun hc => by rw [hphone] at hc; exact Bool.false_ne_true hc)]
  have h3 : nameScore a b 0 = Rat.divInt 7 10 := by
    rw [nameScore, hsim, if_pos (by decide)]; decide
  have h4 : orgScore a b (Rat.divInt 7 10) = Rat.divInt 7 10 := by
    rw [orgScore, if_neg (fun hc => by rw [horg] at hc; exact Bool.false_ne_true hc.1)]
  rw [compareContacts, h1, h2, h3, h4, ← h710]
  rfl

/-- Claim C8, witness: "John Smith" vs "Smith John" (structured parts swapped)
scores similarity 0.90 and confidence 0.70. -/
theorem computeNameSimilarity_swapped_witness :
    computeNameSimilarity swapA swapB = 9/10 ∧ ((9:ℚ)/10 ≥ 17/20)
      ∧ compareContacts libNone swapA swapB = 7/10 :=
  computeNameSimilarity_swapped libNone swapA swapB (by decide) (by decide) (by decide)
    (by decide) (by decide) (by decide) (by decide) (by decide) (by decide) (by decide)
    (by decide)

/-! ## Claim C5: `get` across the active and archived areas -/

theorem lookup_removeAssoc (m : List (String × String)) (k : String) :
    (removeAssoc m k).lookup k = none := by
  induction m with
  | nil => rfl
  | cons h t ih =>
    rcases h with ⟨a, b⟩
    by_cases hk : a = k
    · simpa [removeAssoc, hk] using ih
    · simpa [removeAssoc, hk, List.lookup, beq_false_of_ne (Ne.symm hk)] using ih

theorem lookup_setAssoc (m : List (String × String)) (k v : String) :
    (setAssoc m k v).lookup k = some v := by
  rw [setAssoc]
  by_cases hs : (m.lookup k).isSome
  · rw [if_pos hs]
    induction m with
    | nil => simp at hs
    | cons h t ih =>
      rcases h with ⟨a, b⟩
      by_cases hk : a = k
      · subst hk
        have hmap : List.map (fun kv => if kv.1 = a then (kv.1, v) else kv) ((a, b) :: t)
            = (a, v) :: List.map (fun kv => if kv.1 = a then (kv.1, v) else kv) t := by
          simp
        rw [hmap]
        simp [List.lookup]
      · have ht : (t.lookup k).isSome := by
          simpa [List.lookup, beq_false_of_ne (Ne.symm hk)] using hs
        have hmap : List.map (fun kv => if kv.1 = k then (kv.1, v) else kv) ((a, b) :: t)
            = (a, b) :: List.map (fun kv => if kv.1 = k then (kv.1, v) else kv) t := by
          simp [hk]
        rw [hmap]
        have hstep : List.lookup k
            ((a, b) :: List.map (fun kv => if kv.1 = k then (kv.1, v) else kv) t)
            = List.lookup k (List.map (fun kv => if kv.1 = k then (kv.1, v) else kv) t) := by
          simp [List.lookup, beq_false_of_ne (Ne.symm hk)]
        rw [hstep]
        exact ih ht
  · rw [if_neg hs]
    induction m with
    | nil => simp [List.lookup]
    | cons h t ih =>
      rcases h with ⟨a, b⟩
      by_cases hk : a = k
      · simp [List.lookup, hk] at hs
      · have ht : ¬(t.lookup k).isSome := by
          simpa [List.lookup, beq_false_of_ne (Ne.symm hk)] using hs
        simpa [List.lookup, beq_false_of_ne (Ne.symm hk)] using ih ht

/-- Claim C5: `get` consults the active area first, then the archived area,
and decodes the record from whichever holds it; it fails with NotFound exactly
when the id is absent from both.  After a soft delete (`delete` with
`permanent = false`) the record is still gettable (from the archive); after a
permanent delete — on a store that does not hold the id in both areas at once,
which the lifecycle invariant rules out — `get` fails with NotFound. -/
theorem get_delete_lifecycle (now : String) (st : StoreFs) (id : String) :
    (GitStore.get now st id = .error (.notFound id)
      ↔ st.active.lookup id = none ∧ st.archived.lookup id = none)
    ∧ (∀ v, st.active.lookup id = some v →
        GitStore.get now st id = .ok (vcardToContact now v))
    ∧ (∀ v, st.active.lookup id = none → st.archived.lookup id = some v →
        GitStore.get now st id = .ok (vcardToContact now v))
    ∧ (∀ st', GitStore.delete now st id false = .ok st' →
        ∃ v, st.active.lookup id = some v
          ∧ GitStore.get now st' id = .ok (vcardToContact now v))
    ∧ (¬(st.active.lookup id ≠ none ∧ st.archived.lookup id ≠ none) →
        ∀ st', GitStore.delete now st id true = .ok st' →
        GitStore.get now st' id = .error (.notFound id)) := by
  refine ⟨?_, ?_, ?_, ?_, ?_⟩
  · constructor
    · intro h
      rcases ha : st.active.lookup id with _ | v
      · rcases hr : st.archived.lookup id with _ | w
        · exact ⟨rfl, rfl⟩
        · simp [GitStore.get, ha, hr] at h
      · simp [GitStore.get, ha] at h
    · rintro ⟨ha, hr⟩
      rw [GitStore.get, ha, hr]
  · intro v hv
    rw [GitStore.get, hv]
  · intro v ha hv
    rw [GitStore.get, ha, hv]
  · intro st' hdel
    rcases hg : GitStore.get now st id with e | c
    · simp [GitStore.delete, hg] at hdel
    · rcases ha : st.active.lookup id with _ | v
      · simp [GitStore.delete, hg, ha] at hdel
      · simp only [GitStore.delete, hg, ha, Bool.false_eq_true, if_false] at hdel
        refine ⟨v, rfl, ?_⟩
        cases hdel
        rw [GitStore.get]
        simp [lookup_removeAssoc, lookup_setAssoc]
  · intro hnb st' hdel
    rcases hg : GitStore.get now st id with e | c
    · simp [GitStore.delete, hg] at hdel
    · rcases ha : st.active.lookup id with _ | v
      · rcases hr : st.archived.lookup id with _ | w
        · rw [GitStore.get, ha, hr] at hg
          simp at hg
        · simp only [GitStore.delete, hg, if_true, ha, hr, Option.isSome_none,
            Option.isSome_some, Bool.false_eq_true, if_false, if_true] at hdel
          cases hdel
          rw [GitStore.get]
          simp [ha, lookup_removeAssoc]
      · have hr : st.archived.lookup id = none := by
          by_contra hcon
          exact hnb ⟨by rw [ha]; exact fun hh => Option.noConfusion hh, hcon⟩
        simp only [GitStore.delete, hg, if_true, ha, Option.isSome_some, if_true] at hdel
        cases hdel
        rw [GitStore.get]
        simp [hr, lookup_removeAssoc]

set_option maxRecDepth 8192 in
/-- Claim C5, witness: on a store holding one active record, `get` succeeds
and decodes it, a missing id gives NotFound, the record is still gettable
after a soft delete, and NotFound after a permanent delete. -/
theorem get_delete_lifecycle_witness :
    GitStore.get "T" fsEx "A" = .ok (vcardToContact "T" (contactToVCard fixC))
    ∧ GitStore.get "T" fsEx "zz" = Except.error (StoreErr.notFound "zz")
    ∧ (∃ v, fsEx.active.lookup "A" = some v
        ∧ GitStore.get "T" (StoreFs.mk [] [("A", contactToVCard fixC)]) "A"
            = .ok (vcardToContact "T" v))
    ∧ GitStore.get "T" (StoreFs.mk [] []) "A" = Except.error (StoreErr.notFound "A") :=
  ⟨(get_delete_lifecycle "T" fsEx "A").2.1 (contactToVCard fixC) rfl,
   (get_delete_lifecycle "T" fsEx "zz").1.mpr ⟨rfl, rfl⟩,
   (get_delete_lifecycle "T" fsEx "A").2.2.2.1 (StoreFs.mk [] [("A", contactToVCard fixC)])
     (by rfl),
   (get_delete_lifecycle "T" fsEx "A").2.2.2.2 (by decide) (StoreFs.mk [] []) (by rfl)⟩

/-! ## Claim C4: rollback safety tag and missing-ref handling -/

namespace GitStore

theorem revertLoop_tags (rf : String → Bool) (ts : List String) (st : GitState) :
    (revertLoop rf ts st).1.tags = st.tags := by
  induction ts generalizing st with
  | nil => rfl
  | cons h rest ih =>
    rw [revertLoop]
    split
    · rfl
    · exact ih _

theorem revertLoop_count_all_ok (rf : String → Bool) (hrf : ∀ e, rf e = false)
    (ts : List String) (st : GitState) :
    (revertLoop rf ts st).2 = ts.length := by
  induction ts generalizing st with
  | nil => rfl
  | cons h rest ih =>
    rw [revertLoop, if_neg (by rw [hrf h]; exact Bool.false_ne_true)]
    simp [ih]

/-- Claim C4 (amended): every `rollback` invocation creates the safety
checkpoint tag `pre-rollback-<ts>` before any revert, and a dry run performs
no reverts beyond creating that tag.  A `to-tag` rollback naming a tag that
does not exist fails with StoreError without reverting any commits.  A
`to-commit` rollback naming a hash that matches no recent commit does *not*
fail: it reverts every commit in the recent log (up to 100), reporting
success. -/
theorem rollback_amended (rf : String → Bool) (now : String) (st : GitState)
    (opts : RollbackOptions) :
    ("pre-rollback-" ++ now) ∈ (rollback rf now st opts).1.tags
    ∧ (opts.dryRun = true →
        rollback rf now st opts
          = ({ st with tags := st.tags ++ ["pre-rollback-" ++ now] },
             .ok (0, "pre-rollback-" ++ now)))
    ∧ (opts.dryRun = false → opts.mode = .toTag → ∀ t, opts.tagName = some t →
        t ∉ st.tags → t ≠ "pre-rollback-" ++ now →
        rollback rf now st opts
          = ({ st with tags := st.tags ++ ["pre-rollback-" ++ now] },
             .error (.storeError ("Tag not found: " ++ t))))
    ∧ (opts.dryRun = false → opts.mode = .toCommit → ∀ h, opts.commitHash = some h →
        (∀ e ∈ st.commits.take 100, ¬(e = h ∨ strStartsWith e h = true)) →
        (∀ e, rf e = false) →
        (rollback rf now st opts).2
          = .ok ((st.commits.take 100).length, "pre-rollback-" ++ now)) := by
  refine ⟨?_, ?_, ?_, ?_⟩
  · rw [rollback]
    split
    · simp
    · split
      · simp [revertLoop_tags]
      · split
        · simp
        · simp [revertLoop_tags]
      · split
        · simp
        · split
          · simp
          · simp [revertLoop_tags]
  · intro hd
    rw [rollback, if_pos hd]
  · intro hd hm t ht hnott hne
    have hnd : ¬(opts.dryRun = true) := by rw [hd]; exact Bool.false_ne_true
    have hcontains : ((st.tags ++ ["pre-rollback-" ++ now]).contains t) = false := by
      simp only [List.contains, List.elem_eq_mem, decide_eq_false_iff_not, List.mem_append,
        List.mem_singleton]
      rintro (hin | hin)
      · exact hnott hin
      · exact hne hin
    rw [rollback, if_neg hnd]
    simp only [hm, ht]
    rw [if_pos (by rw [hcontains]; exact Bool.false_ne_true)]
  · intro hd hm h hh hnone hrf
    have hnd : ¬(opts.dryRun = true) := by rw [hd]; exact Bool.false_ne_true
    have htw : (st.commits.take 100).takeWhile
        (fun e => decide ¬(e = h ∨ strStartsWith e h = true)) = st.commits.take 100 := by
      rw [List.takeWhile_eq_self_iff]
      intro e he
      simpa using hnone e he
    rw [rollback, if_neg hnd]
    simp only [hm, hh]
    rw [htw, revertLoop_count_all_ok rf hrf]

end GitStore
/-- Claim C4, witness: concrete dry-run, missing-tag and missing-commit
rollbacks on a two-commit history. -/
theorem rollback_amended_witness :
    GitStore.rollback rfNone "T" gitEx { mode := .lastN, dryRun := true }
      = ({ gitEx with tags := gitEx.tags ++ ["pre-rollback-T"] }, .ok (0, "pre-rollback-T"))
    ∧ GitStore.rollback rfNone "T" gitEx { mode := .toTag, tagName := some "nope" }
      = ({ gitEx with tags := gitEx.tags ++ ["pre-rollback-T"] },
         .error (.storeError ("Tag not found: " ++ "nope")))
    ∧ (GitStore.rollback rfNone "T" gitEx { mode := .toCommit, commitHash := some "ccc3" }).2
      = .ok ((gitEx.commits.take 100).length, "pre-rollback-T")
    ∧ "pre-rollback-T"
        ∈ (GitStore.rollback rfNone "T" gitEx { mode := .lastN, dryRun := true }).1.tags :=
  ⟨(GitStore.rollback_amended rfNone "T" gitEx { mode := .lastN, dryRun := true }).2.1 rfl,
   (GitStore.rollback_amended rfNone "T" gitEx
      { mode := .toTag, tagName := some "nope" }).2.2.1 rfl rfl "nope" rfl
      (by decide) (by decide),
   (GitStore.rollback_amended rfNone "T" gitEx
      { mode := .toCommit, commitHash := some "ccc3" }).2.2.2 rfl rfl "ccc3" rfl
      (by decide) (fun _ => rfl),
   (GitStore.rollback_amended rfNone "T" gitEx { mode := .lastN, dryRun := true }).1⟩

/-- Claim C4, counterexample: a `to-commit` rollback whose hash `ccc3` names
no commit succeeds with 2 reverted commits instead of failing with
StoreError. -/
theorem rollback_missing_commit_reverts :
    GitStore.rollback rfNone "T" gitEx { mode := .toCommit, commitHash := some "ccc3" }
      = ({ commits := ["revert-bbb2", "revert-aaa1", "aaa1", "bbb2"],
           tags := ["pre-rollback-T"] }, .ok (2, "pre-rollback-T"))
    ∧ (2 : Nat) ≠ 0 := by
  exact ⟨rfl, by decide⟩

/-! ## Claim C7: union-merge note handling -/

theorem unionNameStep_notes (acc o : Contact) : (unionNameStep acc o).notes = acc.notes := by
  rw [unionNameStep]; split <;> rfl

theorem unionOrgStep_notes (acc o : Contact) : (unionOrgStep acc o).notes = acc.notes := by
  rw [unionOrgStep]; split <;> rfl

theorem unionBirthdayStep_notes (acc o : Contact) :
    (unionBirthdayStep acc o).notes = acc.notes := by
  rw [unionBirthdayStep]; split <;> rfl

theorem unionPhotoStep_notes (acc o : Contact) : (unionPhotoStep acc o).notes = acc.notes := by
  rw [unionPhotoStep]; split <;> rfl

theorem unionCreatedStep_notes (dv : String → Int) (acc o : Contact) :
    (unionCreatedStep dv acc o).notes = acc.notes := by
  rw [unionCreatedStep]; split <;> rfl

theorem unionNotesStep_notes (acc o : Contact) :
    (unionNotesStep acc o).notes =
      if strTruthy o.notes = true ∧ o.notes ≠ acc.notes then
        some (joinNotes acc.notes o.notes)
      else acc.notes := by
  rw [unionNotesStep]; split_ifs <;> rfl

/-- Claim C7 (amended): under the union strategy a later record's non-empty
note is appended with the `\n---\n` separator unless it equals the *entire*
note text accumulated so far.  For a two-record merge this gives the claimed
behaviour — an identical note is kept once, distinct non-empty notes are
joined by the separator — but the comparison is against the accumulated
concatenation, not the set of contributed notes, so with three or more records
an identical non-adjacent note is duplicated (see the counterexample). -/
theorem mergeUnion_notes_pair (dv : String → Int) (now : String) (a b : Contact)
    (r : MergeResult) (hr : mergeContacts dv now [a, b] .union [] = .ok r) :
    (strTruthy b.notes = false → r.mergedContact.notes = a.notes)
    ∧ (b.notes = a.notes → r.mergedContact.notes = a.notes)
    ∧ (∀ x y, a.notes = some x → b.notes = some y → x ≠ "" → y ≠ "" → x ≠ y →
        r.mergedContact.notes = some (x ++ "\n---\n" ++ y))
    ∧ (strTruthy a.notes = false → ∀ y, b.notes = some y → y ≠ "" →
        r.mergedContact.notes = some y) := by
  simp only [mergeContacts, Except.ok.injEq] at hr
  have hkey : r.mergedContact.notes = (unionStep dv a b).notes := by
    rw [← hr]; rfl
  have hpres : (unionUrlsStep (unionBirthdayStep (unionOrgStep (unionAddrsStep
      (unionPhonesStep (unionEmailsStep (unionNameStep a b) b) b) b) b) b) b).notes
      = a.notes := by
    show (unionUrlsStep _ _).notes = _
    have h1 : (unionUrlsStep (unionBirthdayStep (unionOrgStep (unionAddrsStep
        (unionPhonesStep (unionEmailsStep (unionNameStep a b) b) b) b) b) b) b).notes
        = (unionBirthdayStep (unionOrgStep (unionAddrsStep
        (unionPhonesStep (unionEmailsStep (unionNameStep a b) b) b) b) b) b).notes := rfl
    rw [h1, unionBirthdayStep_notes, unionOrgStep_notes]
    have h2 : (unionAddrsStep (unionPhonesStep (unionEmailsStep (unionNameStep a b) b) b)
        b).notes = (unionNameStep a b).notes := rfl
    rw [h2, unionNameStep_notes]
  rw [unionStep, unionCreatedStep_notes, unionPhotoStep_notes] at hkey
  have hcats : (unionCatsStep (unionNotesStep (unionUrlsStep (unionBirthdayStep
      (unionOrgStep (unionAddrsStep (unionPhonesStep (unionEmailsStep
      (unionNameStep a b) b) b) b) b) b) b) b) b).notes
      = (unionNotesStep (unionUrlsStep (unionBirthdayStep (unionOrgStep (unionAddrsStep
      (unionPhonesStep (unionEmailsStep (unionNameStep a b) b) b) b) b) b) b) b).notes :=
    rfl
  rw [hcats, unionNotesStep_notes, hpres] at hkey
  refine ⟨?_, ?_, ?_, ?_⟩
  · intro hf
    rw [hkey, if_neg (fun hc => by rw [hf] at hc; exact Bool.false_ne_true hc.1)]
  · intro heq
    rw [hkey, if_neg (fun hc => hc.2 heq)]
  · intro x y hx hy hxne hyne hne
    have hjoin : joinNotes (some x) (some y) = x ++ "\n---\n" ++ y := by
      simp [joinNotes, hxne, hyne]
      rfl
    rw [hkey, if_pos ⟨by rw [hy]; simp [strTruthy, hyne],
      by rw [hx, hy]; exact fun hc => hne (Option.some.inj hc).symm⟩, hx, hy, hjoin]
  · intro haf y hy hyne
    have hne : b.notes ≠ a.notes := by
      intro hc
      rw [← hc, hy] at haf
      simp [strTruthy, hyne] at haf
    rw [hkey, if_pos ⟨by rw [hy]; simp [strTruthy, hyne], hne⟩, hy]
    rcases han : a.notes with _ | s
    · have : joinNotes none (some y) = y := by
        simp [joinNotes, hyne]
        rfl
      rw [this]
    · rw [han] at haf
      have hs : s = "" := by simpa [strTruthy] using haf
      subst hs
      have : joinNotes (some "") (some y) = y := by
        simp [joinNotes, hyne]
        rfl
      rw [this]

/-- Claim C7, witness: merging two distinct notes joins them with the
separator; merging two identical notes keeps a single copy. -/
theorem mergeUnion_notes_pair_witness :
    ∃ r₁ r₂, mergeContacts dvLen "NOW" [noteA, noteB] .union [] = .ok r₁
      ∧ r₁.mergedContact.notes = some ("x" ++ "\n---\n" ++ "y")
      ∧ mergeContacts dvLen "NOW" [noteA, noteC] .union [] = .ok r₂
      ∧ r₂.mergedContact.notes = noteA.notes :=
  ⟨_, _, rfl,
   (mergeUnion_notes_pair dvLen "NOW" noteA noteB _ rfl).2.2.1 "x" "y" rfl rfl
     (by decide) (by decide) (by decide),
   rfl,
   (mergeUnion_notes_pair dvLen "NOW" noteA noteC _ rfl).2.1 rfl⟩

/-- Claim C7, counterexample: three records whose first and third carry the
identical note "x" merge to "x\n---\ny\n---\nx" — the duplicate
non-adjacent note appears twice. -/
theorem mergeUnion_duplicate_note :
    (mergeContacts dvLen "NOW" [noteA, noteB, noteC] .union []).map
        (fun r => r.mergedContact.notes) = .ok (some "x\n---\ny\n---\nx")
    ∧ noteA.notes = some "x" ∧ noteB.notes = some "y" ∧ noteC.notes = some "x"
    ∧ strSplitOn "x\n---\ny\n---\nx" "\n---\n" = ["x", "y", "x"] :=
  ⟨rfl, rfl, rfl, rfl, by decide⟩

/-! ## Claim C10: symmetry of pairwise scoring -/

theorem levD_symm_aux (x y : List Char) :
    ∀ n i j, i + j ≤ n → levD x y i j = levD y x j i := by
  intro n
  induction n with
  | zero =>
    intro i j h
    have hi : i = 0 := by omega
    have hj : j = 0 := by omega
    subst hi; subst hj
    simp [levD]
  | succ n ih =>
    intro i j h
    match i, j with
    | 0, j =>
      cases j <;> simp [levD]
    | i + 1, 0 =>
      simp [levD]
    | i + 1, j + 1 =>
      simp only [levD]
      by_cases hc : x.getD i ' ' = y.getD j ' '
      · rw [if_pos hc, if_pos hc.symm, ih i j (by omega)]
      · rw [if_neg hc, if_neg (fun hcc => hc hcc.symm),
          ih i (j + 1) (by omega), ih (i + 1) j (by omega), ih i j (by omega)]
        congr 1
        omega

theorem levD_symm (x y : List Char) (i j : Nat) : levD x y i j = levD y x j i :=
  levD_symm_aux x y (i + j) i j le_rfl

theorem levenshtein_symm (a b : String) : levenshtein a b = levenshtein b a := by
  rw [levenshtein, levenshtein, levD_symm]

theorem emailShared_symm (a b : Contact) : emailShared a b = emailShared b a := by
  rw [Bool.eq_iff_iff]
  simp only [emailShared, List.any_eq_true]
  constructor <;> rintro ⟨e, he, f, hf, hv⟩ <;>
    exact ⟨f, hf, e, he, by simp_all⟩

theorem phoneShared_symm (lib : String → Option String) (a b : Contact) :
    phoneShared lib a b = phoneShared lib b a := by
  rw [Bool.eq_iff_iff]
  simp only [phoneShared, List.any_eq_true]
  constructor <;> rintro ⟨e, he, f, hf, hv⟩ <;>
    exact ⟨f, hf, e, he, by simp_all⟩

theorem orgMatch_symm (a b : Contact) : orgMatch a b = orgMatch b a := by
  rw [Bool.eq_iff_iff]
  simp only [orgMatch, Bool.and_eq_true, decide_eq_true_eq]
  constructor <;> rintro ⟨⟨h1, h2⟩, h3⟩ <;> exact ⟨⟨h2, h1⟩, h3.symm⟩

theorem computeNameSimilarity_symm (a b : Contact) :
    computeNameSimilarity a b = computeNameSimilarity b a := by
  simp only [computeNameSimilarity]
  refine if_congr eq_comm rfl
    (if_congr ?_ rfl (if_congr ?_ rfl (if_congr ?_ rfl ?_)))
  · constructor <;> rintro ⟨h1, h2, h3, h4, h5, h6⟩ <;>
      exact ⟨h3, h4, h1, h2, h5.symm, h6.symm⟩
  · constructor <;> rintro ⟨h1, h2, h3, h4, h5, h6⟩ <;>
      exact ⟨h3, h4, h1, h2, h6.symm, h5.symm⟩
  · constructor <;> rintro ⟨h1, h2, h3, h4, h5, h6, h7⟩ <;>
      exact ⟨h2, h1, h4, h3, h5.symm, h6.symm, h7.symm⟩
  · rw [levenshtein_symm, Nat.max_comm]

/-- Claim C10: pairwise duplicate scoring is symmetric — the confidence for
(a, b) equals the confidence for (b, a): email and phone intersection, every
name-similarity rule (including the Levenshtein distance, proved symmetric),
and the organization boost are all invariant under exchanging the records. -/
theorem compareContacts_symm (lib : String → Option String) (a b : Contact) :
    compareContacts lib a b = compareContacts lib b a := by
  rw [compareContacts, compareContacts, emailScore, emailScore, emailShared_symm,
    phoneScore, phoneScore, phoneShared_symm, nameScore, nameScore,
    computeNameSimilarity_symm, orgScore, orgScore, orgMatch_symm]


theorem lookup_cons_ne (t : List (String × String)) {k a : String} (b : String)
    (h : k ≠ a) : List.lookup k ((a, b) :: t) = t.lookup k := by
  simp [List.lookup, beq_false_of_ne h]

theorem lookup_mem {m : List (String × String)} {k v : String}
    (h : m.lookup k = some v) : (k, v) ∈ m := by
  induction m with
  | nil => simp [List.lookup] at h
  | cons e t ih =>
    rcases e with ⟨a, b⟩
    by_cases hk : k = a
    · subst hk
      rw [List.lookup_cons_self] at h
      simp [Option.some.inj h]
    · rw [lookup_cons_ne t b hk] at h
      exact List.mem_cons_of_mem _ (ih h)

theorem lookup_append (m l : List (String × String)) (k : String) :
    (m ++ l).lookup k = (m.lookup k).orElse (fun _ => l.lookup k) := by
  induction m with
  | nil => rcases h : l.lookup k with _ | u <;> simp [Option.orElse, h, List.lookup]
  | cons e t ih =>
    rcases e with ⟨a, b⟩
    by_cases hk : k = a
    · subst hk
      rw [List.cons_append, List.lookup_cons_self, List.lookup_cons_self]
      rfl
    · rw [List.cons_append, lookup_cons_ne _ b hk, lookup_cons_ne t b hk, ih]

theorem mapRep_head (k' v' a b : String) :
    (if (Prod.mk a b).1 = k' then ((Prod.mk a b).1, v') else (a, b))
      = if a = k' then (a, v') else (a, b) := rfl

theorem lookup_mapReplace_self (m : List (String × String)) (k' v' : String)
    (h : (m.lookup k').isSome = true) :
    List.lookup k' (m.map (fun kv => if kv.1 = k' then (kv.1, v') else kv)) = some v' := by
  induction m with
  | nil => simp [List.lookup] at h
  | cons e t ih =>
    rcases e with ⟨a, b⟩
    by_cases hak : a = k'
    · subst hak
      rw [List.map_cons, mapRep_head a v' a b, if_pos rfl]
      exact List.lookup_cons_self
    · rw [lookup_cons_ne t b (fun hc => hak hc.symm)] at h
      rw [List.map_cons, mapRep_head k' v' a b, if_neg hak]
      rw [lookup_cons_ne _ b (fun hc => hak hc.symm)]
      exact ih h

theorem lookup_mapReplace_ne (m : List (String × String)) (k' v' k : String)
    (hk : k ≠ k') :
    List.lookup k (m.map (fun kv => if kv.1 = k' then (kv.1, v') else kv))
      = m.lookup k := by
  induction m with
  | nil => rfl
  | cons e t ih =>
    rcases e with ⟨a, b⟩
    by_cases hak : a = k'
    · subst hak
      rw [List.map_cons, mapRep_head a v' a b, if_pos rfl]
      rw [lookup_cons_ne _ v' hk, lookup_cons_ne t b hk]
      exact ih
    · rw [List.map_cons, mapRep_head k' v' a b, if_neg hak]
      by_cases hka : k = a
      · subst hka
        rw [List.lookup_cons_self, List.lookup_cons_self]
      · rw [lookup_cons_ne _ b hka, lookup_cons_ne t b hka]
        exact ih

theorem setAssoc_lookup_self (m : List (String × String)) (k v : String) :
    (setAssoc m k v).lookup k = some v := lookup_setAssoc m k v

theorem setAssoc_lookup_preserve (m : List (String × String)) (k' v' k : String)
    (h : (m.lookup k).isSome = true) : ((setAssoc m k' v').lookup k).isSome = true := by
  by_cases hk : k = k'
  · subst hk
    rw [lookup_setAssoc]
    rfl
  · rw [setAssoc]
    split
    · rw [lookup_mapReplace_ne m k' v' k hk]
      exact h
    · rw [lookup_append]
      rcases hmk : m.lookup k with _ | u
      · rw [hmk] at h
        simp at h
      · rfl

theorem addProvider_preserve (m : List (String × String)) (e : String × String)
    (k : String) (h : (m.lookup k).isSome = true) :
    ((addProvider m e).lookup k).isSome = true := by
  rw [addProvider]
  split
  · exact setAssoc_lookup_preserve m e.1 e.2 k h
  · exact h

theorem addProvider_self (m : List (String × String)) (e : String × String) :
    ((addProvider m e).lookup e.1).isSome = true := by
  rw [addProvider]
  split
  · rw [lookup_setAssoc]
    rfl
  · rename_i hne
    rcases hmk : m.lookup e.1 with _ | u
    · rw [hmk] at hne
      simp [jsFalsy] at hne
    · simp [hmk]

theorem addProviders_preserve (es : List (String × String)) (m : List (String × String))
    (k : String) (h : (m.lookup k).isSome = true) :
    ((addProviders m es).lookup k).isSome = true := by
  induction es generalizing m with
  | nil => exact h
  | cons e rest ih => exact ih (addProvider m e) (addProvider_preserve m e k h)

theorem addProviders_mem (es : List (String × String)) (m : List (String × String))
    (k v : String) (hin : (k, v) ∈ es) :
    ((addProviders m es).lookup k).isSome = true := by
  induction es generalizing m with
  | nil => simp at hin
  | cons e rest ih =>
    rcases List.mem_cons.mp hin with heq | hrest
    · have : ((addProvider m e).lookup k).isSome = true := by
        rw [← heq] at *
        exact addProvider_self m (k, v)
      exact addProviders_preserve rest (addProvider m e) k this
    · exact ih (addProvider m e) hrest

theorem foldProviders_preserve (cs : List Contact) (m : List (String × String))
    (k : String) (h : (m.lookup k).isSome = true) :
    ((foldProviders m cs).lookup k).isSome = true := by
  induction cs generalizing m with
  | nil => exact h
  | cons c rest ih =>
    exact ih (addProviders m c.metadata.providerIds)
      (addProviders_preserve c.metadata.providerIds m k h)

theorem foldProviders_complete (cs : List Contact) (m : List (String × String))
    (k v : String) (c : Contact) (hc : c ∈ cs) (hin : (k, v) ∈ c.metadata.providerIds) :
    ((foldProviders m cs).lookup k).isSome = true := by
  induction cs generalizing m with
  | nil => simp at hc
  | cons c0 rest ih =>
    rcases List.mem_cons.mp hc with heq | hrest
    · subst heq
      exact foldProviders_preserve rest (addProviders m c.metadata.providerIds) k
        (addProviders_mem c.metadata.providerIds m k v hin)
    · exact ih (addProviders m c0.metadata.providerIds) hrest

theorem lookup_singleton (a b k : String) :
    List.lookup k [(a, b)] = if k = a then some b else none := by
  by_cases hk : k = a
  · subst hk
    rw [List.lookup_cons_self, if_pos rfl]
  · rw [lookup_cons_ne [] b hk, if_neg hk]
    rfl

theorem nzAssoc_lookup {m : List (String × String)} {k v : String}
    (hnz : nzAssoc m) (h : m.lookup k = some v) : v ≠ "" :=
  hnz (k, v) (lookup_mem h)

theorem nzAssoc_setAssoc {m : List (String × String)} {k v : String}
    (hnz : nzAssoc m) (hv : v ≠ "") : nzAssoc (setAssoc m k v) := by
  intro e he
  rw [setAssoc] at he
  split at he
  · rcases List.mem_map.mp he with ⟨kv, hkv, hmap⟩
    by_cases hc : kv.1 = k
    · rw [if_pos hc] at hmap
      rw [← hmap]
      exact hv
    · rw [if_neg hc] at hmap
      rw [← hmap]
      exact hnz kv hkv
  · rcases List.mem_append.mp he with hin | hin
    · exact hnz e hin
    · rcases List.mem_singleton.mp hin with rfl
      exact hv

theorem nzAssoc_addProvider {m : List (String × String)} {e : String × String}
    (hnz : nzAssoc m) (hv : e.2 ≠ "") : nzAssoc (addProvider m e) := by
  rw [addProvider]
  split
  · exact nzAssoc_setAssoc hnz hv
  · exact hnz

theorem nzAssoc_addProviders {es : List (String × String)}
    {m : List (String × String)} (hnz : nzAssoc m) (hes : ∀ e ∈ es, e.2 ≠ "") :
    nzAssoc (addProviders m es) := by
  induction es generalizing m with
  | nil => exact hnz
  | cons e rest ih =>
    exact ih (nzAssoc_addProvider hnz (hes e (List.mem_cons_self e rest)))
      (fun x hx => hes x (List.mem_cons_of_mem e hx))

theorem addProvider_lookup_nz {m : List (String × String)} {e : String × String}
    (hnz : nzAssoc m) (k : String) :
    (addProvider m e).lookup k
      = (m.lookup k).orElse (fun _ => if k = e.1 then some e.2 else none) := by
  rw [addProvider]
  rcases hm1 : m.lookup e.1 with _ | v
  · rw [if_pos (by rfl)]
    rw [setAssoc, if_neg (by rw [hm1]; exact Bool.false_ne_true)]
    rw [lookup_append, lookup_singleton]
  · have hvne : v ≠ "" := nzAssoc_lookup hnz hm1
    rw [if_neg (by simp [jsFalsy]; exact hvne)]
    by_cases hk : k = e.1
    · subst hk
      rw [hm1]
      rfl
    · rcases hmk : m.lookup k with _ | u
      · rw [if_neg hk]
        rfl
      · rfl

theorem addProviders_lookup_nz {es : List (String × String)}
    {m : List (String × String)} (hnz : nzAssoc m) (hes : ∀ e ∈ es, e.2 ≠ "")
    (k : String) :
    (addProviders m es).lookup k
      = (m.lookup k).orElse (fun _ => es.lookup k) := by
  induction es generalizing m with
  | nil =>
    rcases hmk : m.lookup k with _ | u <;> simp [addProviders, Option.orElse, hmk, List.lookup]
  | cons e rest ih =>
    have hstep : (addProviders m (e :: rest)) = addProviders (addProvider m e) rest := rfl
    rw [hstep, ih (nzAssoc_addProvider hnz (hes e (List.mem_cons_self e rest)))
      (fun x hx => hes x (List.mem_cons_of_mem e hx)),
      addProvider_lookup_nz hnz k]
    rcases hmk : m.lookup k with _ | u
    · by_cases hk : k = e.1
      · subst hk
        rcases e with ⟨a, b⟩
        simp [Option.orElse, List.lookup_cons_self]
      · rcases e with ⟨a, b⟩
        rw [lookup_cons_ne rest b hk]
        simp only [if_neg hk]
        rfl
    · rfl

theorem foldProviders_lookup_nz {cs : List Contact}
    {m : List (String × String)} (hnz : nzAssoc m)
    (hcs : ∀ c ∈ cs, nzAssoc c.metadata.providerIds) (k : String) :
    (foldProviders m cs).lookup k
      = (m.lookup k).orElse (fun _ => listFirstProvider cs k) := by
  induction cs generalizing m with
  | nil =>
    rcases hmk : m.lookup k with _ | u <;> simp [foldProviders, Option.orElse, hmk, listFirstProvider]
  | cons c rest ih =>
    have hstep : foldProviders m (c :: rest)
        = foldProviders (addProviders m c.metadata.providerIds) rest := rfl
    rw [hstep, ih (nzAssoc_addProviders hnz (hcs c (List.mem_cons_self c rest)))
      (fun x hx => hcs x (List.mem_cons_of_mem c hx)),
      addProviders_lookup_nz hnz (hcs c (List.mem_cons_self c rest)) k]
    have hfirst : listFirstProvider (c :: rest) k
        = (c.metadata.providerIds.lookup k).orElse (fun _ => listFirstProvider rest k) := by
      rw [listFirstProvider]
      rcases c.metadata.providerIds.lookup k with _ | v <;> rfl
    rw [hfirst]
    rcases m.lookup k with _ | u
    · rfl
    · rfl

theorem unionNameStep_prov (acc other : Contact) :
    (unionNameStep acc other).metadata.providerIds = acc.metadata.providerIds := by
  rw [unionNameStep]
  split <;> rfl

theorem unionOrgStep_prov (acc other : Contact) :
    (unionOrgStep acc other).metadata.providerIds = acc.metadata.providerIds := by
  rw [unionOrgStep]
  split <;> rfl

theorem unionBirthdayStep_prov (acc other : Contact) :
    (unionBirthdayStep acc other).metadata.providerIds = acc.metadata.providerIds := by
  rw [unionBirthdayStep]
  split <;> rfl

theorem unionNotesStep_prov (acc other : Contact) :
    (unionNotesStep acc other).metadata.providerIds = acc.metadata.providerIds := by
  rw [unionNotesStep]
  split <;> rfl

theorem unionPhotoStep_prov (acc other : Contact) :
    (unionPhotoStep acc other).metadata.providerIds = acc.metadata.providerIds := by
  rw [unionPhotoStep]
  split <;> rfl

theorem unionCreatedStep_prov (dv : String → Int) (acc other : Contact) :
    (unionCreatedStep dv acc other).metadata.providerIds = acc.metadata.providerIds := by
  rw [unionCreatedStep]
  split <;> rfl

theorem unionStep_prov (dv : String → Int) (acc other : Contact) :
    (unionStep dv acc other).metadata.providerIds = acc.metadata.providerIds := by
  rw [unionStep, unionCreatedStep_prov, unionPhotoStep_prov, unionCatsStep,
    unionNotesStep_prov, unionUrlsStep, unionBirthdayStep_prov, unionOrgStep_prov,
    unionAddrsStep, unionPhonesStep, unionEmailsStep, unionNameStep_prov]

theorem foldl_unionStep_prov (dv : String → Int) (rest : List Contact) :
    ∀ acc : Contact,
      (rest.foldl (unionStep dv) acc).metadata.providerIds
        = acc.metadata.providerIds := by
  induction rest with
  | nil => intro acc; rfl
  | cons c t ih =>
    intro acc
    rw [List.foldl_cons, ih (unionStep dv acc c), unionStep_prov]



theorem orElse_listFirstProvider (c0 : Contact) (rest : List Contact) (k : String) :
    (c0.metadata.providerIds.lookup k).orElse
        (fun _ => listFirstProvider (c0 :: rest) k)
      = listFirstProvider (c0 :: rest) k := by
  rcases h : c0.metadata.providerIds.lookup k with _ | v
  · rfl
  · simp [listFirstProvider, h, Option.orElse]

/-- Claim C6 (amended): for every merge input list of length at least 2 and
every strategy, the merged record's provider-identifier mapping contains an
entry for every external system named by any source record; under the `union`
strategy (whose base record is the first input), provided every source entry
has a non-empty identifier, the value kept for each system is that of the
first record in the input list having an entry for it.  Under `keep-newest`
and `keep-oldest` the base record is the sorted winner, so an entry of the
first-in-list source can be superseded (see the counterexample). -/
theorem mergeContacts_providerIds (dv : String → Int) (now : String)
    (c0 c1 : Contact) (cs : List Contact) (strategy : MergeStrategy)
    (r : MergeResult)
    (hr : mergeContacts dv now (c0 :: c1 :: cs) strategy [] = Except.ok r) :
    (∀ c ∈ c0 :: c1 :: cs, ∀ e ∈ c.metadata.providerIds,
        (r.mergedContact.metadata.providerIds.lookup e.1).isSome = true) ∧
    (strategy = MergeStrategy.union →
      (∀ c ∈ c0 :: c1 :: cs, ∀ e ∈ c.metadata.providerIds, e.2 ≠ "") →
      ∀ k, r.mergedContact.metadata.providerIds.lookup k
          = listFirstProvider (c0 :: c1 :: cs) k) := by
  simp only [mergeContacts, List.foldl_nil] at hr
  injection hr with h
  subst h
  constructor
  · intro c hc e he
    exact foldProviders_complete (c0 :: c1 :: cs) _ e.1 e.2 c hc he
  · rintro rfl hnzall k
    have hnzall' : ∀ c ∈ c0 :: c1 :: cs, nzAssoc c.metadata.providerIds :=
      fun c hc e he => hnzall c hc e he
    have hbase : ((mergeUnion dv (c0 :: c1 :: cs)).getD c0).metadata.providerIds
        = c0.metadata.providerIds := by
      show ((c1 :: cs).foldl (unionStep dv) c0).metadata.providerIds
        = c0.metadata.providerIds
      exact foldl_unionStep_prov dv (c1 :: cs) c0
    show (foldProviders
        ((mergeUnion dv (c0 :: c1 :: cs)).getD c0).metadata.providerIds
        (c0 :: c1 :: cs)).lookup k = listFirstProvider (c0 :: c1 :: cs) k
    rw [hbase, foldProviders_lookup_nz
      (hnzall' c0 (List.mem_cons_self c0 (c1 :: cs))) hnzall' k]
    exact orElse_listFirstProvider c0 (c1 :: cs) k

/-- Witness for C6 (amended): a union merge of two records with disjoint
provider systems keeps both, and the shared lookup agrees with the
first-in-list value. -/
theorem mergeContacts_providerIds_witness :
    ∃ r, mergeContacts dvLen "T" [provOld, provFm] MergeStrategy.union []
        = Except.ok r ∧
      (r.mergedContact.metadata.providerIds.lookup "fastmail").isSome = true ∧
      r.mergedContact.metadata.providerIds.lookup "google"
        = listFirstProvider [provOld, provFm] "google" := by
  refine ⟨_, rfl, ?_, ?_⟩
  · exact (mergeContacts_providerIds dvLen "T" provOld provFm [] MergeStrategy.union
      _ rfl).1 provFm (by decide) ("fastmail", "fm-456") (by decide)
  · exact (mergeContacts_providerIds dvLen "T" provOld provFm [] MergeStrategy.union
      _ rfl).2 rfl (by decide) "google"

/-- Counterexample to the original C6: under the `keep-newest` strategy the
merged mapping for `google` is the newest record's `g-2`, not the value `g-1`
of the earliest-processed (first-in-list) source — a source's entry is
superseded. -/
theorem mergeContacts_keepNewest_not_first_wins :
    (mergeContacts dvLen "T" [provOld, provNew] MergeStrategy.keepNewest []).map
        (fun r => r.mergedContact.metadata.providerIds)
      = Except.ok [("google", "g-2")]
    ∧ listFirstProvider [provOld, provNew] "google" = some "g-1"
    ∧ provOld.metadata.providerIds.lookup "google" = some "g-1"
    ∧ ("g-2" : String) ≠ "g-1" := by
  refine ⟨?_, rfl, rfl, by decide⟩
  rfl


set_option maxRecDepth 8192 in
/-- Claim C1 (code bug): the vCard round trip is not lossless.  A literal `;`
in a structured-name part is escaped on encode, but the decoder splits the N
line on every `;` before unescaping, so `familyName = "Smith;Jones"` decodes
as family `Smith` plus a stray backslash, given `Jones`, middle `Ann`; and a
note holding a literal backslash followed by `n` decodes as a real newline,
because the decoder rewrites `\n` before collapsing doubled backslashes. -/
theorem vcard_roundtrip_not_lossless :
    ((vcardToContact "T" (contactToVCard conSemi)).name.familyName = some ("Smith" ++ "\\")
      ∧ (vcardToContact "T" (contactToVCard conSemi)).name.givenName = some "Jones"
      ∧ (vcardToContact "T" (contactToVCard conSemi)).name.middleName = some "Ann"
      ∧ conSemi.name.familyName = some "Smith;Jones"
      ∧ conSemi.name.givenName = some "Ann"
      ∧ conSemi.name.middleName = none)
    ∧ ((vcardToContact "T" (contactToVCard conBsn)).notes
          = some ("a" ++ "\\" ++ "\n" ++ "b")
      ∧ conBsn.notes = some ("a" ++ "\\" ++ "nb"))
    ∧ vcardToContact "T" (contactToVCard conSemi) ≠ conSemi
    ∧ vcardToContact "T" (contactToVCard conBsn) ≠ conBsn := by
  decide

set_option maxRecDepth 8192 in
/-- Claim C9 (code bug): `foldLines` measures its 75 bound in UTF-16 code
units, not octets.  A 150-octet ASCII line folds into physical lines of 75 and
76 octets (the continuation exceeds the bound), and the fold point can land
between the halves of a surrogate pair: the encoding of a line with U+1F600
near the boundary contains U+FFFD replacement characters absent from the
original. -/
theorem foldLines_oversize_and_splits_surrogates :
    (strSplitOn (foldLines lineLongAscii) "\r\n").map strUtf8Len = [75, 76]
    ∧ strContainsChar (foldLines lineEmoji) (Char.ofNat 0xFFFD) = true
    ∧ strContainsChar lineEmoji (Char.ofNat 0xFFFD) = false := by
  decide


end ContactsMcp
